import Mathlib

/-! Verification of dhcpserver.c: address pool, binding table, replies, handlers and dispatcher

A shallow embedding of `src/dhcpserver.c`.

* The global `pool` is passed explicitly and returned by every operation that
  writes to it.
* `pool.bindings` (a `queue(3)` list, `LIST_INSERT_HEAD`) is a Lean list whose
  head is the most recently inserted binding; a pointer to a binding is its
  position in that list, `NULL` is `none`.
* `time()` is the argument `now`; it is read several times during one call and
  is taken to be constant over the call.
* `uint32_t` values are natural numbers, reduced modulo `2^32` where the C
  arithmetic wraps.  `htonl`/`ntohl` depend on the byte order of the host,
  which is the argument `le` (`true`: little-endian host).
* Dereferencing a null pointer has no result: the operations that can do so
  return an `Option`, and `none` is that fault.
* A pointer into the request is an offset into its option area; a pointer into
  the reply is an address in bytes (the reply buffer lies at `reply_ptr` and
  has `rsize` bytes, `sizeof(*reply)`).  Arithmetic on a pointer that the code
  casts to `uint8_t *` is on bytes; arithmetic on a `dhcp_option *` or a
  `dhcp_message *` that is not cast advances by whole objects.  A write outside
  the option area of the reply is a fault as well.
* The headers (`dhcpserver.h`, `dhcp.h`, `options.h`) are not part of the
  sources; what is taken from them is marked at each definition.
* The helpers that the REQUEST, DECLINE and RELEASE handlers call and the
  sources do not define are the fields of `request_helpers`; the general
  results hold for all of them, the evaluations use `spec_helpers`.
* `message_dispatcher` is one turn of its loop, `message_dispatcher_step`; the
  `switch` without `break` is the list of calls `switch_entry`.
-/

namespace Dhcpserver

set_option maxRecDepth 100000

/-! ## Data model -/

/-- Modelled from the spec: the status enumeration of `dhcpserver.h`, which is
missing from the sources (the code names `PENDING`, `ASSOCIATED`, `EXPIRED`;
the spec lists `Free | Pending | Associated | Expired | Released`). -/
inductive binding_status where
  | FREE
  | PENDING
  | ASSOCIATED
  | EXPIRED
  | RELEASED
  deriving DecidableEq, Repr

/-- The `address_binding` / `address_assoc` record, with the fields the code
reads and writes.  `assoc_time` and `lease_time` are unbounded naturals (their
C types are declared in the missing header). -/
structure address_binding where
  address : Nat
  cident : List Nat
  assoc_time : Nat
  lease_time : Nat
  status : binding_status
  flags : Nat
  is_static : Bool
  deriving DecidableEq, Repr

/-- One option: `id`, `len` and `len` bytes of `data`. -/
structure dhcp_option where
  id : Nat
  len : Nat
  data : List Nat
  deriving DecidableEq, Repr

/-- The global `address_pool`.  `options` is the catalog `pool.options[256]`,
indexed by option number; entries beyond the end of the list are all-zero
(`memset` in `main`). -/
structure address_pool where
  first : Nat
  last : Nat
  current : Nat
  default_lease_time : Nat
  pending_time : Nat
  server_id : Nat
  options : List dhcp_option
  bindings : List address_binding
  deriving DecidableEq, Repr

/-- The `dhcp_message` buffer: the header fields the code touches and the bytes
of the option area (`msg->options`, which starts with the magic cookie).  An
option-area byte beyond the end of the list reads as `0`. -/
structure dhcp_message where
  op : Nat
  htype : Nat
  hlen : Nat
  xid : Nat
  secs : Nat
  yiaddr : Nat
  siaddr : Nat
  chaddr : List Nat
  options : List Nat
  deriving DecidableEq, Repr

/-- The reply descriptor `dhcp_msg_type`; `NOP` is the zero value, which the
code also writes `NULL`. -/
inductive dhcp_msg_type where
  | NOP
  | DHCP_OFFER
  | DHCP_ACK
  | DHCP_NAK
  deriving DecidableEq, Repr

/-- Constant of `dhcp.h` (missing): length of a hardware address compared by
`memcmp(assoc->cident, msg->chaddr, ETHERNET_LEN)`. -/
def ETHERNET_LEN : Nat := 6

/-- Modelled from the spec: `DHCP_HEADER_SIZE` of `dhcp.h` (missing), the
"fixed 236-byte header". -/
def DHCP_HEADER_SIZE : Nat := 236

/-- Option number of `options.h` (missing): Requested IP Address. -/
def REQUESTED_IP_ADDRESS : Nat := 50

/-- Option number of `options.h` (missing): Parameter Request List. -/
def PARAMETER_REQUEST_LIST : Nat := 55

/-- Modelled from the spec: the `End` marker `0xFF`. -/
def END : Nat := 255

/-- Modelled from the spec: the magic cookie `63 82 53 63` (hexadecimal). -/
def option_magic : List Nat := [99, 130, 83, 99]

/-! ## Byte order -/

/-- Reversal of the four bytes of a 32-bit word. -/
def bswap32 (x : Nat) : Nat :=
  (x % 256) * 16777216 + (x / 256 % 256) * 65536 + (x / 65536 % 256) * 256
    + (x / 16777216 % 256)

/-- The call `htonl(x)` on a host that is little-endian when `le` holds. -/
def htonl (le : Bool) (x : Nat) : Nat :=
  if le then bswap32 x else x % 4294967296

/-- The call `ntohl(x)`: the same map as `htonl`. -/
def ntohl (le : Bool) (x : Nat) : Nat :=
  if le then bswap32 x else x % 4294967296

/-- The native `uint32_t` load `*((uint32_t *)p)` of four bytes `b0 b1 b2 b3`
stored at increasing addresses. -/
def load32 (le : Bool) (b0 b1 b2 b3 : Nat) : Nat :=
  if le then b0 % 256 + (b1 % 256) * 256 + (b2 % 256) * 65536 + (b3 % 256) * 16777216
  else (b0 % 256) * 16777216 + (b1 % 256) * 65536 + (b2 % 256) * 256 + b3 % 256

/-- The test `memcmp(a, b, n) == 0`; a byte beyond the end of a list is `0`
(the binding is allocated with `calloc`). -/
def memcmp_eq (a b : List Nat) (n : Nat) : Bool :=
  (List.range n).all (fun i => a.getD i 0 == b.getD i 0)

/-! ## Pointers into a message -/

/-- The missing helper `search_option (opts, len, id)`, taken as a parameter:
given the option area, its length and an option number it yields the offset,
counted from the start of the option area, of the option found, or `none`. -/
abbrev option_search := List Nat → Nat → Nat → Option Nat

/-- The read `opt->len` of the option at offset `o` of the option area. -/
def opt_len (msg : dhcp_message) (o : Nat) : Nat :=
  msg.options.getD (o + 1) 0

/-- The read `opt->data[i]` of the option at offset `o` of the option area. -/
def opt_data (msg : dhcp_message) (o i : Nat) : Nat :=
  msg.options.getD (o + 2 + i) 0

/-- The `size_t` expression `len - DHCP_HEADER_SIZE` (64-bit, wrapping). -/
def options_len (len : Nat) : Nat :=
  (len % 18446744073709551616 + 18446744073709551616 - DHCP_HEADER_SIZE)
    % 18446744073709551616

/-! ## Binding table and address pool -/

/-- Function `add_binding`: a zeroed record (`calloc`, so `is_static` is clear)
filled with the address, the first `cident_len` bytes of the identifier, the
current time, the default lease time, the status and the flags, inserted at the
head of the list.  The new binding is at position `0`. -/
def add_binding (now : Nat) (pool : address_pool) (address : Nat) (cident : List Nat)
    (cident_len : Nat) (status : binding_status) (flags : Nat) : address_pool :=
  { pool with
    bindings :=
      { address := address
        cident := cident.take cident_len
        assoc_time := now
        lease_time := pool.default_lease_time
        status := status
        flags := flags
        is_static := false } :: pool.bindings }

/-- Function `take_free_address`: the value returned and the pool afterwards.
The test `pool.current <= pool.last` compares the stored words as they are;
the increment is done on `ntohl(pool.current)` in 32 bits. -/
def take_free_address (le : Bool) (pool : address_pool) : Nat × address_pool :=
  if pool.current ≤ pool.last then
    (pool.current,
      { pool with current := htonl le ((ntohl le pool.current + 1) % 4294967296) })
  else
    (0, pool)

/-- The statement repeated at the head of every loop body:
`if (assoc->assoc_time + assoc->lease_time < time()) assoc->status = EXPIRED;`. -/
def expire_entry (now : Nat) (a : address_binding) : address_binding :=
  if a.assoc_time + a.lease_time < now then { a with status := binding_status.EXPIRED }
  else a

/-- The loop of `search_static_assoc` over the list: the list afterwards and
the position of the binding returned. -/
def search_static_loop (now : Nat) (msg : dhcp_message) :
    List address_binding → List address_binding × Option Nat
  | [] => ([], none)
  | a :: rest =>
    let a1 := expire_entry now a
    if a1.is_static && memcmp_eq a1.cident msg.chaddr ETHERNET_LEN then
      (a1 :: rest, some 0)
    else
      let r := search_static_loop now msg rest
      (a1 :: r.1, r.2.map (· + 1))

/-- Function `search_static_assoc`. -/
def search_static_assoc (now : Nat) (msg : dhcp_message) (pool : address_pool) :
    address_pool × Option Nat :=
  let r := search_static_loop now msg pool.bindings
  ({ pool with bindings := r.1 }, r.2)

/-- The loop of `search_dynamic_assoc` over the list. -/
def search_dynamic_loop (now : Nat) (msg : dhcp_message) :
    List address_binding → List address_binding × Option Nat
  | [] => ([], none)
  | a :: rest =>
    let a1 := expire_entry now a
    if !a1.is_static && memcmp_eq a1.cident msg.chaddr ETHERNET_LEN then
      (a1 :: rest, some 0)
    else
      let r := search_dynamic_loop now msg rest
      (a1 :: r.1, r.2.map (· + 1))

/-- Function `search_dynamic_assoc`. -/
def search_dynamic_assoc (now : Nat) (msg : dhcp_message) (pool : address_pool) :
    address_pool × Option Nat :=
  let r := search_dynamic_loop now msg pool.bindings
  ({ pool with bindings := r.1 }, r.2)

/-- The first loop of `new_dynamic_assoc`: every binding is passed through the
expiry statement, and `found_assoc` ends as the last binding whose address
equals the requested one (the loop has no `break`).  The test
`memcmp(assoc->address, ip_opt->data, 4) == 0` is read as the comparison of the
four bytes of the stored address with the data of the option, that is with
`&assoc->address`; as written, the integer `assoc->address` stands where a
pointer is expected, and a run that took it for one would read through it. -/
def requested_loop (now : Nat) (req : Nat) :
    List address_binding → List address_binding × Option Nat
  | [] => ([], none)
  | a :: rest =>
    let a1 := expire_entry now a
    let r := requested_loop now req rest
    (a1 :: r.1,
      match r.2 with
      | some j => some (j + 1)
      | none => if a1.address = req then some 0 else none)

/-- The reuse loop of `new_dynamic_assoc`.  For a binding that is not static
the condition goes on to read `found_assoc->status`: with a null `found_assoc`
that is a fault (`none`); otherwise the binding under the cursor of the loop is
returned when `found_assoc` is neither `PENDING` nor `ASSOCIATED`.  The result
`some none` is the `return NOP` after the loop. -/
def reuse_loop (found_assoc : Option address_binding) :
    List address_binding → Option (Option Nat)
  | [] => some none
  | a :: rest =>
    if !a.is_static then
      match found_assoc with
      | none => none
      | some f =>
        if f.status ≠ binding_status.PENDING ∧ f.status ≠ binding_status.ASSOCIATED then
          some (some 0)
        else
          (reuse_loop found_assoc rest).map (fun r => r.map (· + 1))
    else
      (reuse_loop found_assoc rest).map (fun r => r.map (· + 1))

/-- The address word `*((uint32_t *)ip_opt->data)` of the option at offset `o`. -/
def requested_address (le : Bool) (msg : dhcp_message) (o : Nat) : Nat :=
  load32 le (opt_data msg o 0) (opt_data msg o 1) (opt_data msg o 2) (opt_data msg o 3)

/-- The guard `ip_opt && ip_opt->len == 4 && ((uint8_t *)ip_opt) + 6 < ((uint8_t *)msg) + len`. -/
def ip_opt_usable (msg : dhcp_message) (len : Nat) (ip_opt : Option Nat) : Bool :=
  match ip_opt with
  | none => false
  | some o => opt_len msg o == 4 && decide (DHCP_HEADER_SIZE + o + 6 < len)

/-- The first part of `new_dynamic_assoc`: when the Requested IP Address option
`ip_opt` passes the guard the table is scanned for its address, otherwise the
table is left alone and `found_assoc` stays `NULL`. -/
def request_scan (le : Bool) (now : Nat) (msg : dhcp_message) (len : Nat)
    (ip_opt : Option Nat) (pool : address_pool) : List address_binding × Option Nat :=
  match ip_opt with
  | some o =>
    if ip_opt_usable msg len ip_opt then
      requested_loop now (requested_address le msg o) pool.bindings
    else (pool.bindings, none)
  | none => (pool.bindings, none)

/-- The branch `else if (found_assoc != NULL || ip_opt == NULL)` of
`new_dynamic_assoc`: a fresh address from the pool is bound to the client, or,
when `take_free_address` returns `0`, the reuse loop runs.  `add_binding` is
called without its `flags` argument, which is taken as `0`. -/
def take_or_reuse (le : Bool) (now : Nat) (msg : dhcp_message) (pool : address_pool)
    (found_assoc : Option address_binding) : Option (address_pool × Option Nat) :=
  if (take_free_address le pool).1 ≠ 0 then
    some (add_binding now (take_free_address le pool).2 (take_free_address le pool).1
      msg.chaddr ETHERNET_LEN binding_status.PENDING 0, some 0)
  else
    (reuse_loop found_assoc (take_free_address le pool).2.bindings).map
      (fun i => ((take_free_address le pool).2, i))

/-- Function `new_dynamic_assoc`: the pool afterwards and the binding returned
(`none` inside: `NULL`/`NOP`); the outer `none` is the null dereference of the
reuse loop. -/
def new_dynamic_assoc (so : option_search) (le : Bool) (now : Nat) (msg : dhcp_message)
    (len : Nat) (pool : address_pool) : Option (address_pool × Option Nat) :=
  let ip_opt := so msg.options (options_len len) REQUESTED_IP_ADDRESS
  let r := request_scan le now msg len ip_opt pool
  let pool1 := { pool with bindings := r.1 }
  let found_assoc : Option address_binding := r.2.bind (fun i => r.1[i]?)
  match found_assoc with
  | some f =>
    if !f.is_static ∧ f.status ≠ binding_status.PENDING
        ∧ f.status ≠ binding_status.ASSOCIATED then
      some (pool1, r.2)
    else take_or_reuse le now msg pool1 found_assoc
  | none =>
    match ip_opt with
    | none => take_or_reuse le now msg pool1 found_assoc
    | some o =>
      some (add_binding now pool1 (requested_address le msg o) msg.chaddr ETHERNET_LEN
        binding_status.PENDING 0, some 0)

/-! ## Reply encoding -/

/-- Modelled from the spec: the helper `search_option` of `options.h`, which is
missing from the sources, following the decoding contract of the option codec:
the option area begins with the 4-byte magic cookie; then each entry is
`(id, len, data)` except the one-byte `Pad` (0) and `End` (0xFF); an entry whose
declared length would read past the total length is rejected; when an id
repeats the last occurrence wins.  `fuel` bounds the walk, `pos` is the offset
reached, `found` the last matching offset so far. -/
def search_option_walk (opts : List Nat) (total id : Nat) : Nat → Nat → Option Nat → Option Nat
  | 0, _, found => found
  | fuel + 1, pos, found =>
    if total ≤ pos then found
    else if opts.getD pos 0 = END then found
    else if opts.getD pos 0 = 0 then search_option_walk opts total id fuel (pos + 1) found
    else if total ≤ pos + 1 then none
    else if total < pos + 2 + opts.getD (pos + 1) 0 then none
    else
      search_option_walk opts total id fuel (pos + 2 + opts.getD (pos + 1) 0)
        (if opts.getD pos 0 = id then some pos else found)

/-- Modelled from the spec: `search_option (opts, len, id)` as the walk above,
started behind the magic cookie (see `search_option_walk`). -/
def search_option : option_search := fun opts total id =>
  if opts.take 4 = option_magic then search_option_walk opts total id total 4 none
  else none

/-- The bytes of `l` with `bytes` written from offset `off` on (a shorter list
is first extended with zero bytes). -/
def write_at (l : List Nat) (off : Nat) (bytes : List Nat) : List Nat :=
  (l.take off ++ List.replicate (off - l.length) 0) ++ bytes ++ l.drop (off + bytes.length)

/-- A `memcpy` of `bytes` to the address `addr`, for a reply buffer of `rsize`
bytes at address `reply_ptr`: inside the option area of the reply it updates
that area, anywhere else it is a fault (`none`). -/
def store_bytes (reply_ptr rsize : Nat) (reply : dhcp_message) (addr : Nat)
    (bytes : List Nat) : Option dhcp_message :=
  if reply_ptr + DHCP_HEADER_SIZE ≤ addr ∧ addr + bytes.length ≤ reply_ptr + rsize then
    some { reply with
      options := write_at reply.options (addr - (reply_ptr + DHCP_HEADER_SIZE)) bytes }
  else none

/-- The catalog entry `pool.options[i]`. -/
def catalog_entry (pool : address_pool) (i : Nat) : dhcp_option :=
  pool.options.getD i { id := 0, len := 0, data := [] }

/-- Modelled from the spec: the bytes the missing helper `copy_option` writes
for an option, `id`, `len` and `len` bytes of data; it returns the destination
advanced by `len + 2`. -/
def option_bytes (o : dhcp_option) : List Nat :=
  o.id :: o.len :: (o.data.take o.len ++ List.replicate (o.len - o.data.length) 0)

/-- Modelled from the spec: `sizeof(dhcp_option)`.  The type is declared in
`options.h`, which is missing; an entry has an id, a length and a payload
"bounded to 255 bytes". -/
def sizeof_dhcp_option : Nat := 257

/-- The `for` loop of `fill_requested_dhcp_options` over the requested ids still
to be read: the value returned (`0` or `1`) and the reply afterwards.  `dst` is
a `dhcp_option *`: in the test `dst + pool.options[*id].len + 2 > dst_end` the
sum `len + 2` counts objects of `sizeof(dhcp_option)` bytes.  `copy_option`
returns the destination advanced by the `len + 2` bytes it has written. -/
def fill_loop (pool : address_pool) (reply_ptr rsize : Nat) (dst_end : Nat) :
    List Nat → Nat → dhcp_message → Option (Nat × dhcp_message)
  | [], _, reply => some (1, reply)
  | i :: ids, dst, reply =>
    if (catalog_entry pool i).id ≠ 0 then
      if dst + ((catalog_entry pool i).len + 2) * sizeof_dhcp_option > dst_end then
        some (0, reply)
      else
        match store_bytes reply_ptr rsize reply dst (option_bytes (catalog_entry pool i)) with
        | none => none
        | some reply1 =>
          fill_loop pool reply_ptr rsize dst_end ids (dst + (catalog_entry pool i).len + 2) reply1
    else fill_loop pool reply_ptr rsize dst_end ids dst reply

/-- The ids `*id` read by the loop `for (; id < end; id++)`, where `id` starts
at the data of the option at offset `o` and `end` is the smaller of `opts_end`
(`msg + len`) and `id + requested_opts->len`. -/
def requested_ids (msg : dhcp_message) (len : Nat) (o : Nat) : List Nat :=
  let id := DHCP_HEADER_SIZE + o + 2
  let e := if len < id + opt_len msg o then len else id + opt_len msg o
  (List.range (e - id)).map (fun k => opt_data msg o k)

/-- Function `fill_requested_dhcp_options`, for the Parameter Request List at
offset `o` of the option area of `msg`. -/
def fill_requested_dhcp_options (pool : address_pool) (reply_ptr rsize : Nat)
    (msg : dhcp_message) (len : Nat) (o : Nat) (dst dst_end : Nat) (reply : dhcp_message) :
    Option (Nat × dhcp_message) :=
  fill_loop pool reply_ptr rsize dst_end (requested_ids msg len o) dst reply

/-- Function `prepare_dhcp_offer_or_ack`, for a reply buffer of `rsize` bytes
at address `reply_ptr`.  `dst_end = reply + sizeof(*reply)` is arithmetic on a
`dhcp_message *`: it lies `sizeof(*reply)` whole messages, `rsize * rsize`
bytes, behind the start of the buffer.  The local option `type` is built and
never written.  The integer returned by `fill_requested_dhcp_options` is
assigned to the pointer `dst`.  The value returned is `NOP` or `DHCP_OFFER`
whatever `type` is. -/
def prepare_dhcp_offer_or_ack (so : option_search) (le : Bool) (reply_ptr rsize : Nat)
    (pool : address_pool) (msg : dhcp_message) (len : Nat) (reply : dhcp_message)
    (assoc : address_binding) (_type : dhcp_msg_type) : Option (dhcp_message × dhcp_msg_type) :=
  let reply1 := { reply with yiaddr := htonl le assoc.address, siaddr := htonl le pool.server_id }
  let dst_end := reply_ptr + rsize * rsize
  match store_bytes reply_ptr rsize reply1 (reply_ptr + DHCP_HEADER_SIZE) option_magic with
  | none => none
  | some reply2 =>
    let dst := reply_ptr + DHCP_HEADER_SIZE + 4
    let finish := fun (dst : Nat) (r : dhcp_message) =>
      if dst + 1 > dst_end then some (r, dhcp_msg_type.NOP)
      else (store_bytes reply_ptr rsize r dst [END]).map (fun r1 => (r1, dhcp_msg_type.DHCP_OFFER))
    match so msg.options (options_len len) PARAMETER_REQUEST_LIST with
    | some o =>
      match fill_requested_dhcp_options pool reply_ptr rsize msg len o dst dst_end reply2 with
      | none => none
      | some (d, reply3) =>
        if d = 0 then some (reply3, dhcp_msg_type.NOP) else finish d reply3
    | none => finish dst reply2

/-- Modelled from the spec: `prepare_dhcp_offer (msg, len, reply, assoc)`, which
`serve_dhcp_discover` calls and the sources do not define ("produce `Offer`
with that address"): `prepare_dhcp_offer_or_ack` with the type `DHCP_OFFER`. -/
def prepare_dhcp_offer (so : option_search) (le : Bool) (reply_ptr rsize : Nat)
    (pool : address_pool) (msg : dhcp_message) (len : Nat) (reply : dhcp_message)
    (assoc : address_binding) : Option (dhcp_message × dhcp_msg_type) :=
  prepare_dhcp_offer_or_ack so le reply_ptr rsize pool msg len reply assoc
    dhcp_msg_type.DHCP_OFFER

/-! ## DISCOVER -/

/-- The statement of `serve_dhcp_discover` on the binding found:
`if (assoc->assoc_time + assoc->lease_time < time())` the binding becomes
`PENDING` from now on for `pool.pending_time`. -/
def renew_pending (now : Nat) (pool : address_pool) (a : address_binding) : address_binding :=
  if a.assoc_time + a.lease_time < now then
    { a with status := binding_status.PENDING, assoc_time := now, lease_time := pool.pending_time }
  else a

/-- The two branches of `serve_dhcp_discover` that found a binding, at position
`i`: the binding is renewed when its lease has lapsed, and the offer is
prepared for it. -/
def offer_found (so : option_search) (le : Bool) (reply_ptr rsize : Nat) (now : Nat)
    (msg : dhcp_message) (len : Nat) (reply : dhcp_message) (pool : address_pool) (i : Nat) :
    Option (address_pool × dhcp_message × dhcp_msg_type) :=
  match pool.bindings[i]? with
  | none => none
  | some a =>
    let pool1 := { pool with bindings := pool.bindings.set i (renew_pending now pool a) }
    (prepare_dhcp_offer so le reply_ptr rsize pool1 msg len reply (renew_pending now pool a)).map
      (fun r => (pool1, r.1, r.2))

/-- Function `serve_dhcp_discover`: the pool and the reply buffer afterwards
and the value returned; `none` is a fault (null dereference or a write outside
the reply's option area). -/
def serve_dhcp_discover (so : option_search) (le : Bool) (reply_ptr rsize : Nat) (now : Nat)
    (msg : dhcp_message) (len : Nat) (reply : dhcp_message) (pool : address_pool) :
    Option (address_pool × dhcp_message × dhcp_msg_type) :=
  let s := search_static_assoc now msg pool
  match s.2 with
  | some i => offer_found so le reply_ptr rsize now msg len reply s.1 i
  | none =>
    let d := search_dynamic_assoc now msg s.1
    match d.2 with
    | some i => offer_found so le reply_ptr rsize now msg len reply d.1 i
    | none =>
      match new_dynamic_assoc so le now msg len d.1 with
      | none => none
      | some (pool1, none) => some (pool1, reply, dhcp_msg_type.NOP)
      | some (pool1, some i) =>
        match pool1.bindings[i]? with
        | none => none
        | some a =>
          (prepare_dhcp_offer so le reply_ptr rsize pool1 msg len reply a).map
            (fun r => (pool1, r.1, r.2))

/-! ## Reply header -/

/-- Constant of `dhcp.h` (missing): the `op` of a client request (RFC 2131
value). -/
def BOOTREQUEST : Nat := 1

/-- Constant of `dhcp.h` (missing): the `op` of a server reply (RFC 2131
value). -/
def BOOTREPLY : Nat := 2

/-- Constant of `dhcp.h` (missing): the hardware type of Ethernet (RFC 2131
value). -/
def ETHERNET : Nat := 1

/-- Function `init_dhcp_reply`: the reply buffer afterwards and the value
returned (always `1`).  The function reads `msg` and writes `reply`; it does
not mention `pool`, so the pool is not among its arguments.  The `memcpy` of
`sizeof(msg->chaddr)` bytes copies the whole `chaddr` field. -/
def init_dhcp_reply (msg : dhcp_message) (_len : Nat) (reply : dhcp_message) :
    dhcp_message × Nat :=
  ({ reply with
      op := BOOTREPLY
      htype := ETHERNET
      hlen := ETHERNET_LEN
      xid := msg.xid
      secs := msg.secs
      chaddr := msg.chaddr }, 1)

/-! ## REQUEST, DECLINE, RELEASE, INFORM and the dispatcher -/

/-- Option number of `options.h` (missing): DHCP Message Type. -/
def DHCP_MESSAGE_TYPE : Nat := 53

/-- Option number of `options.h` (missing): Server Identifier. -/
def SERVER_IDENTIFIER : Nat := 54

/-- Constant of `dhcp.h` (missing): message type DISCOVER (RFC 2132 value). -/
def DHCPDISCOVER : Nat := 1

/-- Constant of `dhcp.h` (missing): message type REQUEST (RFC 2132 value). -/
def DHCPREQUEST : Nat := 3

/-- Constant of `dhcp.h` (missing): message type DECLINE (RFC 2132 value). -/
def DHCPDECLINE : Nat := 4

/-- Constant of `dhcp.h` (missing): message type RELEASE (RFC 2132 value). -/
def DHCPRELEASE : Nat := 7

/-- Constant of `dhcp.h` (missing): message type INFORM (RFC 2132 value). -/
def DHCPINFORM : Nat := 8

/-- The helpers that `serve_dhcp_request`, `serve_dhcp_decline` and
`serve_dhcp_release` call and the sources do not define, taken as parameters.
Each gets the current time and the global pool where it may use them; a binding
pointer is a position in the list.  `get_server_id` is applied to the buffer
its argument `opts` points to; `release_binding` is also called with a null
pointer (`none`) and may have no result.  `prepare_dhcp_ack` and
`prepare_dhcp_nak` are called with `msg` and `opts` only; they yield the buffer
behind `opts` afterwards and the value they return. -/
structure request_helpers where
  get_server_id : dhcp_message → Nat
  search_pending_binding : Nat → dhcp_message → address_pool → address_pool × Option Nat
  search_pending_assoc : Nat → dhcp_message → address_pool → address_pool × Option Nat
  commit_binding : Nat → address_pool → Nat → address_pool
  release_binding : Nat → address_pool → Option Nat → Option address_pool
  prepare_dhcp_ack : address_pool → dhcp_message → dhcp_message →
    Option (dhcp_message × dhcp_msg_type)
  prepare_dhcp_nak : address_pool → dhcp_message → dhcp_message →
    Option (dhcp_message × dhcp_msg_type)

/-- Function `serve_dhcp_request`: the pool and the buffer behind `opts`
afterwards and the value returned (`NULL` is `NOP`); `none` is a fault.  The
parameter `len` is not used by the function.  The stray declaration
`address_assoc *assoc` has no effect. -/
def serve_dhcp_request (H : request_helpers) (now : Nat) (msg : dhcp_message)
    (opts : dhcp_message) (pool : address_pool) :
    Option (address_pool × dhcp_message × dhcp_msg_type) :=
  if H.get_server_id opts = pool.server_id then
    match (H.search_pending_binding now msg pool).2 with
    | some i =>
      (H.prepare_dhcp_ack (H.commit_binding now (H.search_pending_binding now msg pool).1 i)
        msg opts).map
        (fun r => (H.commit_binding now (H.search_pending_binding now msg pool).1 i, r.1, r.2))
    | none =>
      match H.release_binding now (H.search_pending_binding now msg pool).1 none with
      | none => none
      | some pool1 => (H.prepare_dhcp_nak pool1 msg opts).map (fun r => (pool1, r.1, r.2))
  else if H.get_server_id opts ≠ 0 then
    (H.release_binding now (H.search_pending_assoc now msg pool).1
      (H.search_pending_assoc now msg pool).2).map
      (fun pool1 => (pool1, opts, dhcp_msg_type.NOP))
  else
    some (pool, opts, dhcp_msg_type.NOP)

/-- Function `serve_dhcp_decline` (the log line, which names an undeclared
`assoc`, is left out). -/
def serve_dhcp_decline (H : request_helpers) (now : Nat) (msg : dhcp_message)
    (opts : dhcp_message) (pool : address_pool) :
    Option (address_pool × dhcp_message × dhcp_msg_type) :=
  (H.release_binding now (H.search_pending_binding now msg pool).1
    (H.search_pending_binding now msg pool).2).map
    (fun pool1 => (pool1, opts, dhcp_msg_type.NOP))

/-- Function `serve_dhcp_release` (the log line, which names an undeclared
`assoc`, is left out). -/
def serve_dhcp_release (H : request_helpers) (now : Nat) (msg : dhcp_message)
    (opts : dhcp_message) (pool : address_pool) :
    Option (address_pool × dhcp_message × dhcp_msg_type) :=
  (H.release_binding now (H.search_pending_binding now msg pool).1
    (H.search_pending_binding now msg pool).2).map
    (fun pool1 => (pool1, opts, dhcp_msg_type.NOP))

/-- Function `serve_dhcp_inform`: `return NULL`. -/
def serve_dhcp_inform (opts : dhcp_message) (pool : address_pool) :
    Option (address_pool × dhcp_message × dhcp_msg_type) :=
  some (pool, opts, dhcp_msg_type.NOP)

/-- The five handlers that `message_dispatcher` can call. -/
inductive handler where
  | discover
  | request
  | decline
  | release
  | inform
  deriving DecidableEq, Repr

/-- One call `ret = serve_dhcp_… (&msg, len, &reply)` of the `switch`. -/
def run_handler (H : request_helpers) (so : option_search) (le : Bool)
    (reply_ptr rsize now : Nat) (msg : dhcp_message) (len : Nat) (h : handler)
    (reply : dhcp_message) (pool : address_pool) :
    Option (address_pool × dhcp_message × dhcp_msg_type) :=
  match h with
  | handler.discover => serve_dhcp_discover so le reply_ptr rsize now msg len reply pool
  | handler.request => serve_dhcp_request H now msg reply pool
  | handler.decline => serve_dhcp_decline H now msg reply pool
  | handler.release => serve_dhcp_release H now msg reply pool
  | handler.inform => serve_dhcp_inform reply pool

/-- The statements of the `switch` that run from the label taken to the `break`
of `default`: no `case` ends with a `break`, so control falls from each call
into the next one.  The label order is DISCOVER, REQUEST, DECLINE, RELEASE,
INFORM, `default`. -/
def switch_entry (t : Nat) : List handler :=
  if t = DHCPDISCOVER then
    [handler.discover, handler.request, handler.decline, handler.release, handler.inform]
  else if t = DHCPREQUEST then
    [handler.request, handler.decline, handler.release, handler.inform]
  else if t = DHCPDECLINE then [handler.decline, handler.release, handler.inform]
  else if t = DHCPRELEASE then [handler.release, handler.inform]
  else if t = DHCPINFORM then [handler.inform]
  else []

/-- The calls of the list run one after the other on the pool, the reply buffer
and `ret`: the handlers that were called, and the state at the end (`none`
when a call had no result). -/
def fall_through (H : request_helpers) (so : option_search) (le : Bool)
    (reply_ptr rsize now : Nat) (msg : dhcp_message) (len : Nat) :
    List handler → address_pool × dhcp_message × dhcp_msg_type →
      List handler × Option (address_pool × dhcp_message × dhcp_msg_type)
  | [], st => ([], some st)
  | h :: hs, st =>
    match run_handler H so le reply_ptr rsize now msg len h st.2.1 st.1 with
    | none => ([h], none)
    | some st1 =>
      (h :: (fall_through H so le reply_ptr rsize now msg len hs st1).1,
        (fall_through H so le reply_ptr rsize now msg len hs st1).2)

/-- One turn of the loop of `message_dispatcher` for a received message: the
handlers called, and at the end the pool and the reply sent, if any (`none`
when a handler had no result).  `len` is the `size_t` received length (the test
`len < 0` never holds); `parsed` is whether the missing
`parse_options_to_list` returned non-zero (its list `msg_opts` is not used
afterwards); `reply0` and `ret0` are the contents of the locals `reply` and
`ret` before they are assigned.  The call
`search_option (DHCP_MESSAGE_TYPE, len - DHCP_HEADER_SIZE - sizeof(option_magic), opts)`
is read as a search for the message type in the area behind the magic
cookie. -/
def message_dispatcher_step (H : request_helpers) (so : option_search) (le : Bool)
    (reply_ptr rsize now : Nat) (parsed : Bool) (ret0 : dhcp_msg_type) (len : Nat)
    (msg reply0 : dhcp_message) (pool : address_pool) :
    List handler × Option (address_pool × Option dhcp_message) :=
  if len < 300 then ([], some (pool, none))
  else if msg.op ≠ BOOTREQUEST then ([], some (pool, none))
  else if parsed = false then ([], some (pool, none))
  else if memcmp_eq msg.options option_magic 4 = false then ([], some (pool, none))
  else
    match so (msg.options.drop 4)
        ((options_len len + 18446744073709551616 - 4) % 18446744073709551616)
        DHCP_MESSAGE_TYPE with
    | none => ([], some (pool, none))
    | some o =>
      ((fall_through H so le reply_ptr rsize now msg len
          (switch_entry (msg.options.getD (4 + o + 2) 0))
          (pool, (init_dhcp_reply msg len reply0).1, ret0)).1,
        (fall_through H so le reply_ptr rsize now msg len
          (switch_entry (msg.options.getD (4 + o + 2) 0))
          (pool, (init_dhcp_reply msg len reply0).1, ret0)).2.map
          (fun st => (st.1, if st.2.2 ≠ dhcp_msg_type.NOP then some st.2.1 else none)))

/-! ## Auxiliary definitions for the proofs -/

/-- The common shape of the two lookup loops: sweep with the expiry statement
and stop at the first binding, after its own sweep, that satisfies `p`. -/
def sweep_find (now : Nat) (p : address_binding → Bool) :
    List address_binding → List address_binding × Option Nat
  | [] => ([], none)
  | a :: rest =>
    if p (expire_entry now a) then (expire_entry now a :: rest, some 0)
    else
      let r := sweep_find now p rest
      (expire_entry now a :: r.1, r.2.map (· + 1))

/-- The test of `search_static_assoc` on one binding. -/
def static_match (msg : dhcp_message) (a : address_binding) : Bool :=
  a.is_static && memcmp_eq a.cident msg.chaddr ETHERNET_LEN

/-- The test of `search_dynamic_assoc` on one binding. -/
def dynamic_match (msg : dhcp_message) (a : address_binding) : Bool :=
  !a.is_static && memcmp_eq a.cident msg.chaddr ETHERNET_LEN

/-- What a lookup guarantees at time `now`: every binding it has traversed (up
to and including the one it returns, or the whole list when it returns none)
that is `ASSOCIATED` has `now ≤ assoc_time + lease_time`. -/
def swept_ok (now : Nat) (r : address_pool × Option Nat) : Prop :=
  ∀ i b, r.1.bindings[i]? = some b → (∀ j, r.2 = some j → i ≤ j) →
    b.status = binding_status.ASSOCIATED → now ≤ b.assoc_time + b.lease_time

/-- The list `after` extends `before` at the head only, and every binding of
`before` whose lease has not lapsed at `now` is found again, as it was, at the
same distance from the end of the list. -/
def keeps (now : Nat) (before after : List address_binding) : Prop :=
  before.length ≤ after.length ∧
    ∀ i a, before[i]? = some a → now ≤ a.assoc_time + a.lease_time →
      after[i + (after.length - before.length)]? = some a

/-- The record that `add_binding` inserts when `new_dynamic_assoc` binds
`address` to the sender of `msg` at time `now`. -/
def new_binding (now : Nat) (pool : address_pool) (address : Nat) (msg : dhcp_message) :
    address_binding :=
  { address := address
    cident := msg.chaddr.take ETHERNET_LEN
    assoc_time := now
    lease_time := pool.default_lease_time
    status := binding_status.PENDING
    flags := 0
    is_static := false }

/-- A binding is live when its status is `PENDING` or `ASSOCIATED`. -/
def is_live (b : address_binding) : Bool :=
  b.status == binding_status.PENDING || b.status == binding_status.ASSOCIATED

/-- No two live bindings of the list, at different positions, have the same
address. -/
def no_shared_address (l : List address_binding) : Prop :=
  l.Pairwise (fun x y => is_live x = true → is_live y = true → x.address ≠ y.address)

instance (l : List address_binding) : Decidable (no_shared_address l) := by
  unfold no_shared_address
  infer_instance

/-- Every live binding of the pool has an address that is, in host order,
below the cursor. -/
def behind_cursor (le : Bool) (pool : address_pool) : Prop :=
  ∀ b ∈ pool.bindings, is_live b = true → ntohl le b.address < ntohl le pool.current

/-- The message carries no Requested IP Address option, or one that passes the
guard of `new_dynamic_assoc` and names an address that some binding of the
table has. -/
def request_known (so : option_search) (le : Bool) (pool : address_pool)
    (msg : dhcp_message) (len : Nat) : Prop :=
  match so msg.options (options_len len) REQUESTED_IP_ADDRESS with
  | none => True
  | some o =>
    ip_opt_usable msg len (some o) = true
      ∧ ∃ b ∈ pool.bindings, b.address = requested_address le msg o

instance (le : Bool) (pool : address_pool) : Decidable (behind_cursor le pool) := by
  unfold behind_cursor
  infer_instance

instance (so : option_search) (le : Bool) (pool : address_pool) (msg : dhcp_message)
    (len : Nat) : Decidable (request_known so le pool msg len) := by
  unfold request_known
  cases so msg.options (options_len len) REQUESTED_IP_ADDRESS <;> infer_instance

/-- One call of `new_dynamic_assoc`: the time of the call, the message and its
length. -/
structure alloc_call where
  now : Nat
  msg : dhcp_message
  len : Nat

/-- A sequence of `new_dynamic_assoc` calls run one after the other on the
pool; `none` when one of them has no result. -/
def alloc_seq (so : option_search) (le : Bool) : List alloc_call → address_pool →
    Option address_pool
  | [], pool => some pool
  | c :: rest, pool =>
    match new_dynamic_assoc so le c.now c.msg c.len pool with
    | none => none
    | some r => alloc_seq so le rest r.1

/-- The bytes the spec asks `FillRequested` to produce for a list of requested
ids: for each id, in the order of the list, the entry the catalog has for it,
encoded as `id, len, data`; an id for which the catalog has no entry (an
all-zero entry, `id = 0`) is skipped. -/
def requested_bytes (pool : address_pool) : List Nat → List Nat
  | [] => []
  | i :: ids =>
    if (catalog_entry pool i).id ≠ 0 then
      option_bytes (catalog_entry pool i) ++ requested_bytes pool ids
    else requested_bytes pool ids

/-! ## Helpers modelled from the spec -/

/-- Modelled from the spec: `search_option` for an area that may begin with the
magic cookie (as in `new_dynamic_assoc` and `prepare_dhcp_offer_or_ack`) or
behind it (as in `message_dispatcher`): the walk of `search_option_walk` from
behind the cookie in the first case, from the start of the area in the second.
The offset returned counts from the start of the area given. -/
def search_option_any : option_search := fun opts total id =>
  if opts.take 4 = option_magic then search_option opts total id
  else search_option_walk opts total id total 0 none

/-- Modelled from the spec: `get_server_id`, missing from the sources ("read
the `Server Identifier` option"; "if no server id is present"): the address
word of the Server Identifier option of the buffer, `0` when there is none. -/
def spec_get_server_id (so : option_search) (le : Bool) (opts : dhcp_message) : Nat :=
  match so opts.options opts.options.length SERVER_IDENTIFIER with
  | none => 0
  | some o => requested_address le opts o

/-- Modelled from the spec: the test of `search_pending_binding`, missing from
the sources ("find the `Pending` binding for this client+address"): the binding
is of the sender of `msg`, is `PENDING`, and has the address that the message
asks for in its Requested IP Address option. -/
def pending_match (so : option_search) (le : Bool) (msg : dhcp_message)
    (a : address_binding) : Bool :=
  memcmp_eq a.cident msg.chaddr ETHERNET_LEN
    && (a.status == binding_status.PENDING)
    && (match so msg.options msg.options.length REQUESTED_IP_ADDRESS with
        | none => false
        | some o => a.address == requested_address le msg o)

/-- Modelled from the spec: `search_pending_binding`, missing from the sources:
a lookup with the lazy expiry sweep of the other lookups ("each lookup performs
lazy-expiry sweep") that stops at the first binding passing `pending_match`. -/
def spec_search_pending (so : option_search) (le : Bool) (now : Nat) (msg : dhcp_message)
    (pool : address_pool) : address_pool × Option Nat :=
  ({ pool with bindings := (sweep_find now (pending_match so le msg) pool.bindings).1 },
    (sweep_find now (pending_match so le msg) pool.bindings).2)

/-- Modelled from the spec: `commit_binding`, missing from the sources
("`Transition → Associated` with `default_lease_time`"; a transition "updates
status and resets `assoc_time` to now"). -/
def spec_commit_binding (now : Nat) (pool : address_pool) (i : Nat) : address_pool :=
  match pool.bindings[i]? with
  | none => pool
  | some b =>
    { pool with
      bindings := pool.bindings.set i
        { b with status := binding_status.ASSOCIATED, assoc_time := now,
                 lease_time := pool.default_lease_time } }

/-- Modelled from the spec: `release_binding`, missing from the sources
("sets status to `Released`").  The spec gives it no meaning for an absent
binding: for a null pointer, and for a position outside the list, there is no
result. -/
def spec_release_binding (_now : Nat) (pool : address_pool) (binding : Option Nat) :
    Option address_pool :=
  match binding with
  | none => none
  | some i =>
    match pool.bindings[i]? with
    | none => none
    | some b =>
      some { pool with
        bindings := pool.bindings.set i { b with status := binding_status.RELEASED } }

/-- Modelled from the spec: `prepare_dhcp_ack`, missing from the sources
("produce `Ack`"; a reply descriptor is the "message type tag", the "assigned
address (if any)" and the options): the address assigned is that of the first
binding of the sender of `msg` for the address the message asks for in its
Requested IP Address option; it is put into `yiaddr` of the buffer and the tag
is `DHCP_ACK`.  Without such a binding there is no result. -/
def spec_prepare_dhcp_ack (so : option_search) (le : Bool) (pool : address_pool)
    (msg : dhcp_message) (opts : dhcp_message) : Option (dhcp_message × dhcp_msg_type) :=
  match so msg.options msg.options.length REQUESTED_IP_ADDRESS with
  | none => none
  | some o =>
    match pool.bindings.find? (fun a =>
        memcmp_eq a.cident msg.chaddr ETHERNET_LEN
          && (a.address == requested_address le msg o)) with
    | none => none
    | some a => some ({ opts with yiaddr := a.address }, dhcp_msg_type.DHCP_ACK)

/-- Modelled from the spec: `prepare_dhcp_nak`, missing from the sources
("produce `Nak`"): the buffer is left as it is. -/
def spec_prepare_dhcp_nak (_pool : address_pool) (_msg : dhcp_message)
    (opts : dhcp_message) : Option (dhcp_message × dhcp_msg_type) :=
  some (opts, dhcp_msg_type.DHCP_NAK)

/-- Modelled from the spec: the helpers of the REQUEST, DECLINE and RELEASE
handlers, missing from the sources, put together
(`search_pending_assoc` is taken to be `search_pending_binding`). -/
def spec_helpers (so : option_search) (le : Bool) : request_helpers :=
  { get_server_id := spec_get_server_id so le
    search_pending_binding := spec_search_pending so le
    search_pending_assoc := spec_search_pending so le
    commit_binding := spec_commit_binding
    release_binding := spec_release_binding
    prepare_dhcp_ack := spec_prepare_dhcp_ack so le
    prepare_dhcp_nak := spec_prepare_dhcp_nak }

/-! ## Concrete values used in the examples -/

/-- The host-order value of the dotted address `a.b.c.d`. -/
def ip4 (a b c d : Nat) : Nat :=
  a * 16777216 + b * 65536 + c * 256 + d

/-- A pool on a little-endian host with the range `10.0.0.10 .. 10.0.0.255`
stored in network byte order and no binding; `cur` is the stored cursor. -/
def pool_le_255 (cur : Nat) : address_pool :=
  { first := htonl true (ip4 10 0 0 10)
    last := htonl true (ip4 10 0 0 255)
    current := cur
    default_lease_time := 3600
    pending_time := 30
    server_id := htonl true (ip4 10 0 0 1)
    options := []
    bindings := [] }

/-- A pool on a little-endian host with the range `10.0.0.10 .. 10.0.1.20`
stored in network byte order and no binding; `cur` is the stored cursor. -/
def pool_le_wide (cur : Nat) : address_pool :=
  { first := htonl true (ip4 10 0 0 10)
    last := htonl true (ip4 10 0 1 20)
    current := cur
    default_lease_time := 3600
    pending_time := 30
    server_id := htonl true (ip4 10 0 0 1)
    options := []
    bindings := [] }

/-- A DISCOVER buffer of the client with hardware address `mac` and the given
option area. -/
def discover_msg (mac : List Nat) (options : List Nat) : dhcp_message :=
  { op := 1, htype := 1, hlen := 6, xid := 956564262, secs := 0, yiaddr := 0, siaddr := 0
    chaddr := mac ++ List.replicate 10 0
    options := options }

/-- Hardware address of a first client. -/
def mac_a : List Nat := [170, 187, 204, 221, 238, 255]

/-- Hardware address of a second client. -/
def mac_b : List Nat := [2, 0, 0, 0, 0, 1]

/-- A binding of the client `mac` for `address`, entered at `t` for `lease`. -/
def binding_of (mac : List Nat) (address : Nat) (st : binding_status) (static : Bool)
    (t lease : Nat) : address_binding :=
  { address := address, cident := mac, assoc_time := t, lease_time := lease
    status := st, flags := 0, is_static := static }

/-- A pool on a big-endian host with the range `10.0.0.10 .. 10.0.0.20`, the
cursor `cur` and the given bindings. -/
def pool_be (cur : Nat) (bindings : List address_binding) : address_pool :=
  { first := ip4 10 0 0 10
    last := ip4 10 0 0 20
    current := cur
    default_lease_time := 3600
    pending_time := 30
    server_id := ip4 10 0 0 1
    options := []
    bindings := bindings }

/-- A table at time `100`: a static and a dynamic binding of the client
`mac_a`, both `ASSOCIATED` with `assoc_time + lease_time = 100`, followed by a
binding of `mac_b` that is `ASSOCIATED` and whose lease ended at `10`. -/
def table_c4 : List address_binding :=
  [ binding_of mac_a (ip4 10 0 0 5) binding_status.ASSOCIATED true 40 60
  , binding_of mac_a (ip4 10 0 0 10) binding_status.ASSOCIATED false 40 60
  , binding_of mac_b (ip4 10 0 0 11) binding_status.ASSOCIATED false 0 10 ]

/-- A reply buffer before `serve_dhcp_discover` fills it: the header fields set
by `init_dhcp_reply` for the request `msg`, nothing in the option area. -/
def fresh_reply (msg : dhcp_message) : dhcp_message :=
  { op := 2, htype := 1, hlen := ETHERNET_LEN, xid := msg.xid, secs := msg.secs
    yiaddr := 0, siaddr := 0, chaddr := msg.chaddr, options := [] }

/-- The option area of a DISCOVER without Requested IP Address and without
Parameter Request List: magic cookie, DHCP Message Type 1, End. -/
def plain_options : List Nat := option_magic ++ [53, 1, 1, 255]

/-- A static binding of `mac_b` for `10.0.0.5`, `ASSOCIATED` since `0` for
`100`. -/
def static_b : address_binding :=
  binding_of mac_b (ip4 10 0 0 5) binding_status.ASSOCIATED true 0 100

/-- A static binding of `mac_a` for `10.0.0.5`, `ASSOCIATED` since `0` for
`100`. -/
def static_a : address_binding :=
  binding_of mac_a (ip4 10 0 0 5) binding_status.ASSOCIATED true 0 100

/-- A dynamic binding of `mac_a` for `10.0.0.10`, `PENDING` since `190` for
`30`. -/
def pending_a : address_binding :=
  binding_of mac_a (ip4 10 0 0 10) binding_status.PENDING false 190 30

/-- The option area of a DISCOVER that asks for `192.168.1.77` in its Requested
IP Address option. -/
def foreign_request_options : List Nat :=
  option_magic ++ [53, 1, 1, 50, 4, 192, 168, 1, 77, 255]

/-- The option area of a DISCOVER that asks for `10.0.0.a` in its Requested IP
Address option. -/
def request_options (a : Nat) : List Nat :=
  option_magic ++ [53, 1, 1, 50, 4, 10, 0, 0, a, 255]

/-- Hardware address of a third client. -/
def mac_c : List Nat := [2, 0, 0, 0, 0, 2]

/-- A dynamic binding of `mac_b` for `10.0.0.10`, `EXPIRED`, entered at `0` for
`100`. -/
def expired_b : address_binding :=
  binding_of mac_b (ip4 10 0 0 10) binding_status.EXPIRED false 0 100

/-- A dynamic binding of `mac_b` for `10.0.0.10`, `PENDING` since `180` for
`3600`. -/
def pending_b : address_binding :=
  binding_of mac_b (ip4 10 0 0 10) binding_status.PENDING false 180 3600

/-- A dynamic binding of `mac_c` for `10.0.0.11`, `PENDING` since `190` for
`30`. -/
def pending_c : address_binding :=
  binding_of mac_c (ip4 10 0 0 11) binding_status.PENDING false 190 30

/-- A dynamic binding of `mac_c` for `10.0.0.11`, `ASSOCIATED` since `150` for
`3600`. -/
def assoc_c : address_binding :=
  binding_of mac_c (ip4 10 0 0 11) binding_status.ASSOCIATED false 150 3600

/-- A pool on a big-endian host with the two-address range
`10.0.0.10 .. 10.0.0.11`, the cursor at `10.0.0.12` (both addresses have been
handed out) and the given bindings. -/
def pool_be_used (bindings : List address_binding) : address_pool :=
  { pool_be (ip4 10 0 0 12) bindings with last := ip4 10 0 0 11 }

/-- A static binding of `mac_b` for `10.0.0.5`, `EXPIRED`, entered at `0` for
`100`. -/
def static_expired_b : address_binding :=
  binding_of mac_b (ip4 10 0 0 5) binding_status.EXPIRED true 0 100

/-- The option area of a DISCOVER whose Requested IP Address option declares a
length of `2` (data `10, 0`) and is followed by the End marker. -/
def short_request_options : List Nat := option_magic ++ [53, 1, 1, 50, 2, 10, 0, 255]

/-- A catalog with the subnet mask (option `1`) and the router (option `3`);
every other entry is empty. -/
def small_catalog : List dhcp_option :=
  [{ id := 0, len := 0, data := [] },
   { id := 1, len := 4, data := [255, 255, 255, 0] },
   { id := 0, len := 0, data := [] },
   { id := 3, len := 4, data := [10, 0, 0, 1] }]

/-- The pool `pool_be` with the catalog `small_catalog`. -/
def pool_be_small (cur : Nat) (bindings : List address_binding) : address_pool :=
  { pool_be cur bindings with options := small_catalog }

/-- The option area of a DISCOVER whose Parameter Request List, at offset `7`,
asks for the options `3`, `12` and `1`, in this order. -/
def list_request_options : List Nat := option_magic ++ [53, 1, 1, 55, 3, 3, 12, 1, 255]

/-- A reply buffer in which the header and the magic cookie have been
written. -/
def cookie_reply (msg : dhcp_message) : dhcp_message :=
  { fresh_reply msg with options := option_magic }

/-- The option area of a REQUEST that answers the offer of the server
`10.0.0.1` for `10.0.0.10`: DHCP Message Type 3, Server Identifier, Requested
IP Address, End. -/
def select_options : List Nat :=
  option_magic ++ [53, 1, 3, 54, 4, 10, 0, 0, 1, 50, 4, 10, 0, 0, 10, 255]

/-- The option area of a REQUEST that renews a lease: DHCP Message Type 3 and
no Server Identifier. -/
def renew_options : List Nat := option_magic ++ [53, 1, 3, 255]

/-- A dynamic binding of `mac_a` for `10.0.0.10`, `ASSOCIATED` since `100` for
`3600`. -/
def assoc_a : address_binding :=
  binding_of mac_a (ip4 10 0 0 10) binding_status.ASSOCIATED false 100 3600

/-! ## Theorems -/

/-- C2 (evaluation at the failing input).  On a little-endian host, with the
range `10.0.0.10 .. 10.0.0.255` and the cursor at `10.0.0.255` (inside the
range), two successive calls of `take_free_address` both succeed; the first
returns `10.0.0.255` and the second returns `10.0.1.0`, which is above `last`
in host order and below `first` as a stored word.  With the range
`10.0.0.10 .. 10.0.1.20` and the cursor at `10.0.0.21`, inside the range in
host order, the call returns `0` and leaves the cursor where it is. -/
theorem take_free_address_leaves_range :
    (take_free_address true (pool_le_255 (htonl true (ip4 10 0 0 255)))).1
        = htonl true (ip4 10 0 0 255)
      ∧ (take_free_address true
          (take_free_address true (pool_le_255 (htonl true (ip4 10 0 0 255)))).2).1
        = htonl true (ip4 10 0 1 0)
      ∧ htonl true (ip4 10 0 1 0) ≠ 0
      ∧ ntohl true (pool_le_255 0).last < ntohl true (htonl true (ip4 10 0 1 0))
      ∧ htonl true (ip4 10 0 1 0) < (pool_le_255 0).first
      ∧ ntohl true (pool_le_wide 0).first ≤ ntohl true (htonl true (ip4 10 0 0 21))
      ∧ ntohl true (htonl true (ip4 10 0 0 21)) ≤ ntohl true (pool_le_wide 0).last
      ∧ take_free_address true (pool_le_wide (htonl true (ip4 10 0 0 21)))
        = (0, pool_le_wide (htonl true (ip4 10 0 0 21))) := by
  decide

/-- C3 (evaluation at the failing inputs).  On a little-endian host:
with the range `10.0.0.10 .. 10.0.1.20` and the cursor at `10.0.0.21`, which
has not passed `last` in host order, `take_free_address` returns `0`; with the
range `10.0.0.10 .. 10.0.0.255` and the cursor at `10.0.1.0`, which has passed
`last` in host order, it returns `10.0.1.0` and moves the cursor. -/
theorem take_free_address_exhaustion_by_stored_word :
    (ntohl true (pool_le_wide (htonl true (ip4 10 0 0 21))).current
        ≤ ntohl true (pool_le_wide (htonl true (ip4 10 0 0 21))).last
      ∧ (take_free_address true (pool_le_wide (htonl true (ip4 10 0 0 21)))).1 = 0)
    ∧ (ntohl true (pool_le_255 (htonl true (ip4 10 0 1 0))).last
        < ntohl true (pool_le_255 (htonl true (ip4 10 0 1 0))).current
      ∧ (take_free_address true (pool_le_255 (htonl true (ip4 10 0 1 0)))).1
        = htonl true (ip4 10 0 1 0)
      ∧ (take_free_address true (pool_le_255 (htonl true (ip4 10 0 1 0)))).1 ≠ 0
      ∧ (take_free_address true (pool_le_255 (htonl true (ip4 10 0 1 0)))).2
        ≠ pool_le_255 (htonl true (ip4 10 0 1 0))) := by
  decide

/-! ### Lookups -/

theorem expire_entry_assoc (now : Nat) (a : address_binding)
    (h : (expire_entry now a).status = binding_status.ASSOCIATED) :
    now ≤ (expire_entry now a).assoc_time + (expire_entry now a).lease_time := by
  unfold expire_entry at h ⊢
  split
  · rename_i hlt
    simp [hlt] at h
  · omega

theorem expire_entry_fresh (now : Nat) (a : address_binding)
    (h : now ≤ a.assoc_time + a.lease_time) : expire_entry now a = a := by
  unfold expire_entry
  rw [if_neg (by omega)]

theorem search_static_loop_eq (now : Nat) (msg : dhcp_message) (l : List address_binding) :
    search_static_loop now msg l = sweep_find now (static_match msg) l := by
  induction l with
  | nil => rfl
  | cons a rest ih => simp only [search_static_loop, sweep_find, static_match, ih]

theorem search_dynamic_loop_eq (now : Nat) (msg : dhcp_message) (l : List address_binding) :
    search_dynamic_loop now msg l = sweep_find now (dynamic_match msg) l := by
  induction l with
  | nil => rfl
  | cons a rest ih => simp only [search_dynamic_loop, sweep_find, dynamic_match, ih]

theorem sweep_find_assoc (now : Nat) (p : address_binding → Bool) (l : List address_binding) :
    ∀ i b, (sweep_find now p l).1[i]? = some b →
      (∀ j, (sweep_find now p l).2 = some j → i ≤ j) →
      b.status = binding_status.ASSOCIATED → now ≤ b.assoc_time + b.lease_time := by
  induction l with
  | nil => intro i b h; simp [sweep_find] at h
  | cons a rest ih =>
    intro i b h hj hs
    unfold sweep_find at h hj
    by_cases hp : p (expire_entry now a) = true
    · simp only [hp, if_true] at h hj
      have hi : i = 0 := Nat.le_zero.mp (hj 0 rfl)
      subst hi
      simp at h
      subst h
      exact expire_entry_assoc now a hs
    · simp only [hp] at h hj
      cases i with
      | zero =>
        simp at h
        subst h
        exact expire_entry_assoc now a hs
      | succ k =>
        simp at h
        refine ih k b h ?_ hs
        intro j hjj
        have := hj (j + 1) (by simp [hjj])
        omega

/-- C4 (amended).  After `search_static_assoc` and after `search_dynamic_assoc`
return at time `now`, every binding the lookup has traversed (the bindings up
to and including the one returned; all of them when none is returned) whose
status is `ASSOCIATED` satisfies `now ≤ assoc_time + lease_time`. -/
theorem lookup_lazy_expiry (now : Nat) (msg : dhcp_message) (pool : address_pool) :
    swept_ok now (search_static_assoc now msg pool)
      ∧ swept_ok now (search_dynamic_assoc now msg pool) := by
  constructor
  · intro i b h hj hs
    simp only [search_static_assoc, search_static_loop_eq] at h hj
    exact sweep_find_assoc now _ _ i b h hj hs
  · intro i b h hj hs
    simp only [search_dynamic_assoc, search_dynamic_loop_eq] at h hj
    exact sweep_find_assoc now _ _ i b h hj hs

/-- C4 (counterexample).  At time `100`, on `table_c4`, both lookups for the
client `mac_a` leave the table as it is: the binding returned is `ASSOCIATED`
with `assoc_time + lease_time = 100`, so `100 < assoc_time + lease_time` fails
for it, and the binding of `mac_b` behind it is still `ASSOCIATED` although its
lease ended at `10`. -/
theorem lookup_lazy_expiry_strict_fails :
    (search_static_assoc 100 (discover_msg mac_a []) (pool_be (ip4 10 0 0 12) table_c4)).2
        = some 0
      ∧ (search_static_assoc 100 (discover_msg mac_a [])
          (pool_be (ip4 10 0 0 12) table_c4)).1.bindings = table_c4
      ∧ (search_dynamic_assoc 100 (discover_msg mac_a [])
          (pool_be (ip4 10 0 0 12) table_c4)).2 = some 1
      ∧ (search_dynamic_assoc 100 (discover_msg mac_a [])
          (pool_be (ip4 10 0 0 12) table_c4)).1.bindings = table_c4
      ∧ ¬ (∀ b ∈ (search_dynamic_assoc 100 (discover_msg mac_a [])
            (pool_be (ip4 10 0 0 12) table_c4)).1.bindings,
          b.status = binding_status.ASSOCIATED → 100 < b.assoc_time + b.lease_time)
      ∧ ¬ (∀ b ∈ (search_static_assoc 100 (discover_msg mac_a [])
            (pool_be (ip4 10 0 0 12) table_c4)).1.bindings,
          b.status = binding_status.ASSOCIATED → 100 < b.assoc_time + b.lease_time) := by
  decide

/-! ### Bindings whose lease has not lapsed are left alone -/

theorem sweep_find_length (now : Nat) (p : address_binding → Bool) (l : List address_binding) :
    (sweep_find now p l).1.length = l.length := by
  induction l with
  | nil => rfl
  | cons a rest ih =>
    unfold sweep_find
    by_cases hp : p (expire_entry now a) = true
    · simp [hp]
    · simp [hp, ih]

theorem sweep_find_get_fresh (now : Nat) (p : address_binding → Bool)
    (l : List address_binding) :
    ∀ (i : Nat) (a : address_binding), l[i]? = some a → now ≤ a.assoc_time + a.lease_time →
      (sweep_find now p l).1[i]? = some a := by
  induction l with
  | nil => intro i a h; simp at h
  | cons x rest ih =>
    intro i a h hf
    unfold sweep_find
    by_cases hp : p (expire_entry now x) = true
    · simp only [hp, if_true]
      cases i with
      | zero =>
        simp at h
        subst h
        simp [expire_entry_fresh now x hf]
      | succ k => simpa using h
    · simp only [hp]
      cases i with
      | zero =>
        simp at h
        subst h
        simp [expire_entry_fresh now x hf]
      | succ k =>
        simp at h
        simpa using ih k a h hf

theorem requested_loop_length (now req : Nat) (l : List address_binding) :
    (requested_loop now req l).1.length = l.length := by
  induction l with
  | nil => rfl
  | cons a rest ih => simp [requested_loop, ih]

theorem requested_loop_get_fresh (now req : Nat) (l : List address_binding) :
    ∀ (i : Nat) (a : address_binding), l[i]? = some a → now ≤ a.assoc_time + a.lease_time →
      (requested_loop now req l).1[i]? = some a := by
  induction l with
  | nil => intro i a h; simp at h
  | cons x rest ih =>
    intro i a h hf
    cases i with
    | zero =>
      simp at h
      subst h
      simp [requested_loop, expire_entry_fresh now x hf]
    | succ k =>
      simp at h
      simpa [requested_loop] using ih k a h hf

theorem keeps_refl (now : Nat) (l : List address_binding) : keeps now l l := by
  refine ⟨le_refl _, ?_⟩
  intro i a h _
  simpa using h

theorem keeps_of_length_eq (now : Nat) (before after : List address_binding)
    (hlen : after.length = before.length)
    (h : ∀ (i : Nat) (a : address_binding), before[i]? = some a →
      now ≤ a.assoc_time + a.lease_time →
      after[i]? = some a) : keeps now before after := by
  refine ⟨by omega, ?_⟩
  intro i a hi hf
  rw [hlen]
  simpa using h i a hi hf

theorem keeps_trans (now : Nat) (l1 l2 l3 : List address_binding)
    (h12 : keeps now l1 l2) (h23 : keeps now l2 l3) : keeps now l1 l3 := by
  obtain ⟨hl12, hk12⟩ := h12
  obtain ⟨hl23, hk23⟩ := h23
  refine ⟨by omega, ?_⟩
  intro i a hi hf
  have h2 := hk23 _ a (hk12 i a hi hf) hf
  have he : i + (l2.length - l1.length) + (l3.length - l2.length)
      = i + (l3.length - l1.length) := by omega
  rw [he] at h2
  exact h2

theorem keeps_cons (now : Nat) (x : address_binding) (l : List address_binding) :
    keeps now l (x :: l) := by
  refine ⟨by simp, ?_⟩
  intro i a hi _
  have he : i + ((x :: l).length - l.length) = i + 1 := by simp
  rw [he]
  simpa using hi

theorem keeps_sweep_find (now : Nat) (p : address_binding → Bool) (l : List address_binding) :
    keeps now l (sweep_find now p l).1 :=
  keeps_of_length_eq now _ _ (sweep_find_length now p l) (sweep_find_get_fresh now p l)

theorem keeps_requested_loop (now req : Nat) (l : List address_binding) :
    keeps now l (requested_loop now req l).1 :=
  keeps_of_length_eq now _ _ (requested_loop_length now req l)
    (requested_loop_get_fresh now req l)

theorem renew_pending_fresh (now : Nat) (pool : address_pool) (a : address_binding)
    (h : now ≤ a.assoc_time + a.lease_time) : renew_pending now pool a = a := by
  unfold renew_pending
  rw [if_neg (by omega)]

theorem keeps_set_renew (now : Nat) (pool : address_pool) (l : List address_binding)
    (i : Nat) (x : address_binding) (hx : l[i]? = some x) :
    keeps now l (l.set i (renew_pending now pool x)) := by
  refine keeps_of_length_eq now _ _ (by simp) ?_
  intro k a hk hf
  by_cases hki : i = k
  · subst hki
    rw [hx] at hk
    cases hk
    have hlt : i < l.length := by
      rcases Nat.lt_or_ge i l.length with h | h
      · exact h
      · rw [List.getElem?_eq_none h] at hx
        cases hx
    simp [List.getElem?_set, hlt, renew_pending_fresh now pool x hf]
  · simp [List.getElem?_set, hki, hk]

theorem keeps_request_scan (le : Bool) (now : Nat) (msg : dhcp_message) (len : Nat)
    (ip_opt : Option Nat) (pool : address_pool) :
    keeps now pool.bindings (request_scan le now msg len ip_opt pool).1 := by
  unfold request_scan
  split
  · split
    · exact keeps_requested_loop now _ _
    · exact keeps_refl now _
  · exact keeps_refl now _

theorem take_free_address_bindings (le : Bool) (pool : address_pool) :
    (take_free_address le pool).2.bindings = pool.bindings := by
  unfold take_free_address
  split <;> rfl

theorem keeps_take_or_reuse (le : Bool) (now : Nat) (msg : dhcp_message)
    (pool : address_pool) (fa : Option address_binding) (res : address_pool × Option Nat)
    (h : take_or_reuse le now msg pool fa = some res) :
    keeps now pool.bindings res.1.bindings := by
  unfold take_or_reuse at h
  split at h
  · cases h
    simp only [add_binding, take_free_address_bindings]
    exact keeps_cons now _ _
  · simp only [Option.map_eq_some'] at h
    obtain ⟨i, -, hres⟩ := h
    subst hres
    simp only [take_free_address_bindings]
    exact keeps_refl now _

theorem keeps_new_dynamic_assoc (so : option_search) (le : Bool) (now : Nat)
    (msg : dhcp_message) (len : Nat) (pool : address_pool) (res : address_pool × Option Nat)
    (h : new_dynamic_assoc so le now msg len pool = some res) :
    keeps now pool.bindings res.1.bindings := by
  have hsc := keeps_request_scan le now msg len
    (so msg.options (options_len len) REQUESTED_IP_ADDRESS) pool
  unfold new_dynamic_assoc at h
  simp only at h
  split at h
  · split at h
    · cases h
      exact hsc
    · exact keeps_trans now _ _ _ hsc (keeps_take_or_reuse le now msg _ _ res h)
  · split at h
    · exact keeps_trans now _ _ _ hsc (keeps_take_or_reuse le now msg _ _ res h)
    · cases h
      simp only [add_binding]
      exact keeps_trans now _ _ _ hsc (keeps_cons now _ _)

theorem keeps_offer_found (so : option_search) (le : Bool) (reply_ptr rsize now : Nat)
    (msg : dhcp_message) (len : Nat) (reply : dhcp_message) (pool : address_pool) (i : Nat)
    (res : address_pool × dhcp_message × dhcp_msg_type)
    (h : offer_found so le reply_ptr rsize now msg len reply pool i = some res) :
    keeps now pool.bindings res.1.bindings := by
  unfold offer_found at h
  split at h
  · cases h
  · rename_i a ha
    simp only [Option.map_eq_some'] at h
    obtain ⟨r, -, hres⟩ := h
    subst hres
    exact keeps_set_renew now pool pool.bindings i a ha

theorem keeps_serve_dhcp_discover (so : option_search) (le : Bool)
    (reply_ptr rsize now : Nat) (msg : dhcp_message) (len : Nat) (reply : dhcp_message)
    (pool : address_pool) (res : address_pool × dhcp_message × dhcp_msg_type)
    (h : serve_dhcp_discover so le reply_ptr rsize now msg len reply pool = some res) :
    keeps now pool.bindings res.1.bindings := by
  have hs : keeps now pool.bindings (search_static_assoc now msg pool).1.bindings := by
    simp only [search_static_assoc, search_static_loop_eq]
    exact keeps_sweep_find now _ _
  have hd : keeps now (search_static_assoc now msg pool).1.bindings
      (search_dynamic_assoc now msg (search_static_assoc now msg pool).1).1.bindings := by
    simp only [search_dynamic_assoc, search_dynamic_loop_eq]
    exact keeps_sweep_find now _ _
  unfold serve_dhcp_discover at h
  simp only at h
  split at h
  · exact keeps_trans now _ _ _ hs (keeps_offer_found so le reply_ptr rsize now msg len reply _ _ res h)
  · split at h
    · exact keeps_trans now _ _ _ (keeps_trans now _ _ _ hs hd)
        (keeps_offer_found so le reply_ptr rsize now msg len reply _ _ res h)
    · split at h
      · cases h
      · rename_i pool1 hn
        cases h
        exact keeps_trans now _ _ _ (keeps_trans now _ _ _ hs hd)
          (keeps_new_dynamic_assoc so le now msg len _ _ hn)
      · rename_i pool1 i hn
        split at h
        · cases h
        · simp only [Option.map_eq_some'] at h
          obtain ⟨r, -, hres⟩ := h
          subst hres
          exact keeps_trans now _ _ _ (keeps_trans now _ _ _ hs hd)
            (keeps_new_dynamic_assoc so le now msg len _ _ hn)

/-- C5 (amended).  A binding, static or dynamic, whose lease has not lapsed
(`now ≤ assoc_time + lease_time`) is left exactly as it is, at the same
distance from the end of the list, by `search_static_assoc`,
`search_dynamic_assoc`, `new_dynamic_assoc` and `serve_dhcp_discover`: in
particular none of them sets a static binding to `EXPIRED` unless
`assoc_time + lease_time < now`. -/
theorem unlapsed_binding_untouched (so : option_search) (le : Bool)
    (reply_ptr rsize now : Nat) (msg : dhcp_message) (len : Nat) (reply : dhcp_message)
    (pool : address_pool) (i : Nat) (a : address_binding)
    (hget : pool.bindings[i]? = some a)
    (hfresh : now ≤ a.assoc_time + a.lease_time) :
    (search_static_assoc now msg pool).1.bindings[i]? = some a
      ∧ (search_dynamic_assoc now msg pool).1.bindings[i]? = some a
      ∧ (∀ r, new_dynamic_assoc so le now msg len pool = some r →
          r.1.bindings[i + (r.1.bindings.length - pool.bindings.length)]? = some a)
      ∧ (∀ r, serve_dhcp_discover so le reply_ptr rsize now msg len reply pool = some r →
          r.1.bindings[i + (r.1.bindings.length - pool.bindings.length)]? = some a) := by
  refine ⟨?_, ?_, ?_, ?_⟩
  · simp only [search_static_assoc, search_static_loop_eq]
    exact sweep_find_get_fresh now _ _ i a hget hfresh
  · simp only [search_dynamic_assoc, search_dynamic_loop_eq]
    exact sweep_find_get_fresh now _ _ i a hget hfresh
  · intro r hr
    exact (keeps_new_dynamic_assoc so le now msg len pool r hr).2 i a hget hfresh
  · intro r hr
    exact (keeps_serve_dhcp_discover so le reply_ptr rsize now msg len reply pool r hr).2
      i a hget hfresh

/-- C5 (witness): at time `50` the static binding `static_b`, whose lease runs
to `100`, is unchanged by the lookups for another client. -/
theorem unlapsed_binding_untouched_witness :
    (pool_be (ip4 10 0 0 10) [static_b]).bindings[0]? = some static_b
      ∧ 50 ≤ static_b.assoc_time + static_b.lease_time
      ∧ (search_static_assoc 50 (discover_msg mac_a plain_options)
          (pool_be (ip4 10 0 0 10) [static_b])).1.bindings[0]? = some static_b
      ∧ (search_dynamic_assoc 50 (discover_msg mac_a plain_options)
          (pool_be (ip4 10 0 0 10) [static_b])).1.bindings[0]? = some static_b :=
  ⟨by decide, by decide,
    (unlapsed_binding_untouched search_option false 65536 548 50
      (discover_msg mac_a plain_options) 300 (fresh_reply (discover_msg mac_a plain_options))
      (pool_be (ip4 10 0 0 10) [static_b]) 0 static_b (by decide) (by decide)).1,
    (unlapsed_binding_untouched search_option false 65536 548 50
      (discover_msg mac_a plain_options) 300 (fresh_reply (discover_msg mac_a plain_options))
      (pool_be (ip4 10 0 0 10) [static_b]) 0 static_b (by decide) (by decide)).2.1⟩

/-- C5 (counterexample).  At time `200` the static binding `static_b`
(`ASSOCIATED`, lease ended at `100`) is set to `EXPIRED` by
`search_static_assoc` and by `search_dynamic_assoc` run for another client, and
it is still `EXPIRED`, and static, after `serve_dhcp_discover` for that
client; the scan of `new_dynamic_assoc` for a requested address does the
same. -/
theorem static_binding_set_expired :
    static_b.is_static = true
      ∧ static_b.status = binding_status.ASSOCIATED
      ∧ (search_static_assoc 200 (discover_msg mac_a plain_options)
          (pool_be (ip4 10 0 0 10) [static_b])).1.bindings
        = [{ static_b with status := binding_status.EXPIRED }]
      ∧ (search_dynamic_assoc 200 (discover_msg mac_a plain_options)
          (pool_be (ip4 10 0 0 10) [static_b])).1.bindings
        = [{ static_b with status := binding_status.EXPIRED }]
      ∧ (serve_dhcp_discover search_option false 65536 548 200
          (discover_msg mac_a plain_options) 300
          (fresh_reply (discover_msg mac_a plain_options))
          (pool_be (ip4 10 0 0 10) [static_b])).map (fun r => r.1.bindings[1]?)
        = some (some { static_b with status := binding_status.EXPIRED })
      ∧ (new_dynamic_assoc search_option false 200
          (discover_msg mac_a (request_options 15)) 300
          (pool_be (ip4 10 0 0 10) [static_b])).map (fun r => r.1.bindings[1]?)
        = some (some { static_b with status := binding_status.EXPIRED }) := by
  decide

/-! ### The reply of `prepare_dhcp_offer` -/

theorem store_bytes_yiaddr (reply_ptr rsize : Nat) (reply r : dhcp_message) (addr : Nat)
    (bytes : List Nat) (h : store_bytes reply_ptr rsize reply addr bytes = some r) :
    r.yiaddr = reply.yiaddr := by
  unfold store_bytes at h
  split at h
  · cases h
    rfl
  · cases h

theorem fill_loop_yiaddr (pool : address_pool) (reply_ptr rsize dst_end : Nat)
    (ids : List Nat) :
    ∀ (dst : Nat) (reply : dhcp_message) (res : Nat × dhcp_message),
      fill_loop pool reply_ptr rsize dst_end ids dst reply = some res →
      res.2.yiaddr = reply.yiaddr := by
  induction ids with
  | nil =>
    intro dst reply res h
    simp only [fill_loop] at h
    cases h
    rfl
  | cons i ids ih =>
    intro dst reply res h
    unfold fill_loop at h
    split at h
    · split at h
      · cases h
        rfl
      · split at h
        · cases h
        · rename_i reply1 hst
          rw [ih _ _ _ h]
          exact store_bytes_yiaddr _ _ _ _ _ _ hst
    · exact ih _ _ _ h

theorem prepare_dhcp_offer_result (so : option_search) (le : Bool) (reply_ptr rsize : Nat)
    (pool : address_pool) (msg : dhcp_message) (len : Nat) (reply : dhcp_message)
    (assoc : address_binding) (res : dhcp_message × dhcp_msg_type)
    (h : prepare_dhcp_offer so le reply_ptr rsize pool msg len reply assoc = some res) :
    res.1.yiaddr = htonl le assoc.address
      ∧ (res.2 = dhcp_msg_type.DHCP_OFFER ∨ res.2 = dhcp_msg_type.NOP) := by
  unfold prepare_dhcp_offer prepare_dhcp_offer_or_ack at h
  simp only at h
  split at h
  · cases h
  · rename_i reply2 h2
    have y2 : reply2.yiaddr = htonl le assoc.address := by
      rw [store_bytes_yiaddr _ _ _ _ _ _ h2]
    have hfin : ∀ (dst : Nat) (r : dhcp_message),
        r.yiaddr = htonl le assoc.address →
        (if dst + 1 > reply_ptr + rsize * rsize then some (r, dhcp_msg_type.NOP)
          else (store_bytes reply_ptr rsize r dst [END]).map
            (fun r1 => (r1, dhcp_msg_type.DHCP_OFFER))) = some res →
        res.1.yiaddr = htonl le assoc.address
          ∧ (res.2 = dhcp_msg_type.DHCP_OFFER ∨ res.2 = dhcp_msg_type.NOP) := by
      intro dst r hr hres
      split at hres
      · cases hres
        exact ⟨hr, Or.inr rfl⟩
      · simp only [Option.map_eq_some'] at hres
        obtain ⟨r1, hr1, hres⟩ := hres
        subst hres
        exact ⟨by rw [store_bytes_yiaddr _ _ _ _ _ _ hr1, hr], Or.inl rfl⟩
    split at h
    · split at h
      · cases h
      · rename_i o ho d reply3 hfill
        have y3 : reply3.yiaddr = htonl le assoc.address := by
          have := fill_loop_yiaddr _ _ _ _ _ _ _ _ hfill
          rw [this, y2]
        split at h
        · cases h
          exact ⟨y3, Or.inr rfl⟩
        · exact hfin _ _ y3 h
    · exact hfin _ _ y2 h

theorem prepare_dhcp_offer_plain (so : option_search) (le : Bool) (reply_ptr rsize : Nat)
    (pool : address_pool) (msg : dhcp_message) (len : Nat) (reply : dhcp_message)
    (assoc : address_binding)
    (hno : so msg.options (options_len len) PARAMETER_REQUEST_LIST = none)
    (hsize : 241 ≤ rsize) :
    ∃ r, prepare_dhcp_offer so le reply_ptr rsize pool msg len reply assoc
      = some (r, dhcp_msg_type.DHCP_OFFER) := by
  have hsq : rsize ≤ rsize * rsize := Nat.le_mul_self rsize
  unfold prepare_dhcp_offer prepare_dhcp_offer_or_ack
  simp only [hno, store_bytes, DHCP_HEADER_SIZE, option_magic, List.length_cons,
    List.length_nil]
  rw [if_pos (by omega)]
  simp only
  rw [if_neg (by omega), if_pos (by omega)]
  exact ⟨_, rfl⟩

/-! ### DISCOVER for a client that has a binding -/

theorem static_match_expire (now : Nat) (msg : dhcp_message) (a : address_binding) :
    static_match msg (expire_entry now a) = static_match msg a := by
  unfold expire_entry static_match
  split <;> rfl

theorem dynamic_match_expire (now : Nat) (msg : dhcp_message) (a : address_binding) :
    dynamic_match msg (expire_entry now a) = dynamic_match msg a := by
  unfold expire_entry dynamic_match
  split <;> rfl

theorem sweep_find_miss (now : Nat) (p : address_binding → Bool)
    (hp : ∀ a, p (expire_entry now a) = p a) (l : List address_binding)
    (h : ∀ x ∈ l, p x = false) :
    sweep_find now p l = (l.map (expire_entry now), none) := by
  induction l with
  | nil => rfl
  | cons a rest ih =>
    have ha : p a = false := h a (by simp)
    have hr := ih (fun x hx => h x (by simp [hx]))
    unfold sweep_find
    simp [hp, ha, hr]

theorem sweep_find_hit (now : Nat) (p : address_binding → Bool)
    (hp : ∀ a, p (expire_entry now a) = p a) (pre : List address_binding)
    (b : address_binding) (post : List address_binding)
    (hpre : ∀ x ∈ pre, p x = false) (hb : p b = true) :
    sweep_find now p (pre ++ b :: post)
      = (pre.map (expire_entry now) ++ expire_entry now b :: post, some pre.length) := by
  induction pre with
  | nil =>
    simp only [List.nil_append, List.map_nil, List.length_nil]
    unfold sweep_find
    simp [hp, hb]
  | cons a rest ih =>
    have ha : p a = false := hpre a (by simp)
    have hr := ih (fun x hx => hpre x (by simp [hx]))
    simp only [List.cons_append, List.map_cons, List.length_cons]
    unfold sweep_find
    simp [hp, ha, hr]

theorem expire_entry_expire (now : Nat) (a : address_binding) :
    expire_entry now (expire_entry now a) = expire_entry now a := by
  unfold expire_entry
  split <;> simp_all

theorem serve_dhcp_discover_static (so : option_search) (le : Bool)
    (reply_ptr rsize now : Nat) (msg : dhcp_message) (len : Nat) (reply : dhcp_message)
    (pool : address_pool) (pre post : List address_binding) (b : address_binding)
    (htable : pool.bindings = pre ++ b :: post)
    (hpre : ∀ x ∈ pre, static_match msg x = false)
    (hb : static_match msg b = true) :
    serve_dhcp_discover so le reply_ptr rsize now msg len reply pool
      = (prepare_dhcp_offer so le reply_ptr rsize
          { pool with bindings := (pre.map (expire_entry now)
              ++ renew_pending now pool (expire_entry now b) :: post) }
          msg len reply (renew_pending now pool (expire_entry now b))).map
        (fun r => ({ pool with bindings := (pre.map (expire_entry now)
              ++ renew_pending now pool (expire_entry now b) :: post) }, r.1, r.2)) := by
  have hs : search_static_assoc now msg pool
      = ({ pool with bindings := pre.map (expire_entry now) ++ expire_entry now b :: post },
          some pre.length) := by
    simp only [search_static_assoc, search_static_loop_eq, htable]
    rw [sweep_find_hit now _ (static_match_expire now msg) pre b post hpre hb]
  unfold serve_dhcp_discover
  simp only [hs]
  unfold offer_found
  have hget : (pre.map (expire_entry now) ++ expire_entry now b :: post)[pre.length]?
      = some (expire_entry now b) := by
    have : pre.length = (pre.map (expire_entry now)).length := by simp
    rw [this, List.getElem?_append_right (le_refl _)]
    simp
  simp only [hget]
  have hset : (pre.map (expire_entry now) ++ expire_entry now b :: post).set pre.length
        (renew_pending now pool (expire_entry now b))
      = pre.map (expire_entry now) ++ renew_pending now pool (expire_entry now b) :: post := by
    have : pre.length = (pre.map (expire_entry now)).length := by simp
    rw [this, List.set_append_right _ _ (le_refl _)]
    simp
  have hren : ∀ (l : List address_binding) (a : address_binding),
      renew_pending now { pool with bindings := l } a = renew_pending now pool a :=
    fun _ _ => rfl
  simp only [hren, hset]

theorem serve_dhcp_discover_dynamic (so : option_search) (le : Bool)
    (reply_ptr rsize now : Nat) (msg : dhcp_message) (len : Nat) (reply : dhcp_message)
    (pool : address_pool) (pre post : List address_binding) (b : address_binding)
    (htable : pool.bindings = pre ++ b :: post)
    (hstatic : ∀ x ∈ pool.bindings, static_match msg x = false)
    (hpre : ∀ x ∈ pre, dynamic_match msg x = false)
    (hb : dynamic_match msg b = true) :
    serve_dhcp_discover so le reply_ptr rsize now msg len reply pool
      = (prepare_dhcp_offer so le reply_ptr rsize
          { pool with bindings := (pre.map (expire_entry now)
              ++ renew_pending now pool (expire_entry now b) :: post.map (expire_entry now)) }
          msg len reply (renew_pending now pool (expire_entry now b))).map
        (fun r => ({ pool with bindings := (pre.map (expire_entry now)
              ++ renew_pending now pool (expire_entry now b)
                :: post.map (expire_entry now)) }, r.1, r.2)) := by
  have hs : search_static_assoc now msg pool
      = ({ pool with bindings := pool.bindings.map (expire_entry now) }, none) := by
    simp only [search_static_assoc, search_static_loop_eq]
    rw [sweep_find_miss now _ (static_match_expire now msg) _ hstatic]
  have hd : search_dynamic_assoc now msg
        { pool with bindings := pool.bindings.map (expire_entry now) }
      = ({ pool with bindings := (pre.map (expire_entry now) ++ expire_entry now b
            :: post.map (expire_entry now)) }, some pre.length) := by
    simp only [search_dynamic_assoc, search_dynamic_loop_eq, htable, List.map_append,
      List.map_cons]
    rw [sweep_find_hit now _ (dynamic_match_expire now msg) (pre.map (expire_entry now))
      (expire_entry now b) (post.map (expire_entry now))
      (by
        intro x hx
        simp only [List.mem_map] at hx
        obtain ⟨y, hy, rfl⟩ := hx
        rw [dynamic_match_expire]
        exact hpre y hy)
      (by rw [dynamic_match_expire]; exact hb)]
    simp [expire_entry_expire]
  unfold serve_dhcp_discover
  simp only [hs, hd]
  unfold offer_found
  have hget : (pre.map (expire_entry now) ++ expire_entry now b
        :: post.map (expire_entry now))[pre.length]? = some (expire_entry now b) := by
    have : pre.length = (pre.map (expire_entry now)).length := by simp
    rw [this, List.getElem?_append_right (le_refl _)]
    simp
  simp only [hget]
  have hset : (pre.map (expire_entry now) ++ expire_entry now b
        :: post.map (expire_entry now)).set pre.length
          (renew_pending now pool (expire_entry now b))
      = pre.map (expire_entry now) ++ renew_pending now pool (expire_entry now b)
          :: post.map (expire_entry now) := by
    have : pre.length = (pre.map (expire_entry now)).length := by simp
    rw [this, List.set_append_right _ _ (le_refl _)]
    simp
  have hren : ∀ (l : List address_binding) (a : address_binding),
      renew_pending now { pool with bindings := l } a = renew_pending now pool a :=
    fun _ _ => rfl
  simp only [hren, hset]

theorem renew_pending_lapsed (now : Nat) (pool : address_pool) (b : address_binding)
    (h : b.assoc_time + b.lease_time < now) :
    renew_pending now pool (expire_entry now b)
      = { b with status := binding_status.PENDING, assoc_time := now,
                 lease_time := pool.pending_time } := by
  unfold expire_entry renew_pending
  simp [h]

theorem getElem?_append_length_cons (pre : List address_binding) (x : address_binding)
    (post : List address_binding) : (pre ++ x :: post)[pre.length]? = some x := by
  rw [List.getElem?_append_right (le_refl _)]
  simp

/-- What holds of C6 on the runs that return.  For a DISCOVER from a client
whose static binding `b` (the first static binding of the table that matches
its hardware address) has a
lapsed lease, whenever `serve_dhcp_discover` returns, `b` has become `PENDING`
with `assoc_time = now` and `lease_time = pool.pending_time`, all its other
fields (address, client identifier) unchanged, the reply carries
`yiaddr = htonl (b.address)` and the value returned is `DHCP_OFFER` or `NOP`;
and when the message carries no Parameter Request List and the reply buffer
has room for the magic cookie and the End marker, `serve_dhcp_discover` does
return and the value is `DHCP_OFFER`. -/
theorem discover_static_lapsed (so : option_search) (le : Bool)
    (reply_ptr rsize now : Nat) (msg : dhcp_message) (len : Nat) (reply : dhcp_message)
    (pool : address_pool) (pre post : List address_binding) (b : address_binding)
    (htable : pool.bindings = pre ++ b :: post)
    (hpre : ∀ x ∈ pre, static_match msg x = false)
    (hb : static_match msg b = true)
    (hlapsed : b.assoc_time + b.lease_time < now) :
    (∀ r, serve_dhcp_discover so le reply_ptr rsize now msg len reply pool = some r →
        r.1.bindings[pre.length]?
            = some { b with status := binding_status.PENDING, assoc_time := now,
                            lease_time := pool.pending_time }
          ∧ r.2.1.yiaddr = htonl le b.address
          ∧ (r.2.2 = dhcp_msg_type.DHCP_OFFER ∨ r.2.2 = dhcp_msg_type.NOP))
      ∧ (so msg.options (options_len len) PARAMETER_REQUEST_LIST = none → 241 ≤ rsize →
          ∃ r, serve_dhcp_discover so le reply_ptr rsize now msg len reply pool = some r
            ∧ r.2.2 = dhcp_msg_type.DHCP_OFFER) := by
  have heq := serve_dhcp_discover_static so le reply_ptr rsize now msg len reply pool pre post b
    htable hpre hb
  rw [renew_pending_lapsed now pool b hlapsed] at heq
  constructor
  · intro r hr
    rw [heq] at hr
    simp only [Option.map_eq_some'] at hr
    obtain ⟨q, hq, hres⟩ := hr
    subst hres
    have hp := prepare_dhcp_offer_result so le reply_ptr rsize _ msg len reply _ q hq
    refine ⟨?_, hp.1, hp.2⟩
    have hlen : pre.length = (pre.map (expire_entry now)).length := by simp
    simp only []
    rw [hlen]
    exact getElem?_append_length_cons _ _ _
  · intro hno hsize
    obtain ⟨q, hq⟩ := prepare_dhcp_offer_plain so le reply_ptr rsize
      { pool with bindings := (pre.map (expire_entry now)
          ++ { b with status := binding_status.PENDING, assoc_time := now,
                      lease_time := pool.pending_time } :: post) }
      msg len reply
      { b with status := binding_status.PENDING, assoc_time := now,
               lease_time := pool.pending_time } hno hsize
    rw [heq, hq]
    exact ⟨_, rfl, rfl⟩

/-- An instance of `discover_static_lapsed`: at time `200`, a DISCOVER without
Parameter Request List from `mac_a`, whose static binding `static_a` lapsed at
`100`, is answered with `DHCP_OFFER`. -/
theorem discover_static_lapsed_witness :
    ∃ r, serve_dhcp_discover search_option false 65536 548 200
        (discover_msg mac_a plain_options) 300
        (fresh_reply (discover_msg mac_a plain_options))
        (pool_be (ip4 10 0 0 10) [static_a]) = some r
      ∧ r.2.2 = dhcp_msg_type.DHCP_OFFER :=
  (discover_static_lapsed search_option false 65536 548 200
    (discover_msg mac_a plain_options) 300 (fresh_reply (discover_msg mac_a plain_options))
    (pool_be (ip4 10 0 0 10) [static_a]) [] [] static_a rfl (by decide) (by decide)
    (by decide)).2 (by decide) (by decide)

/-- What holds of C7 on the runs that return.  For a DISCOVER from a client
that has no static binding and
whose dynamic binding `b` (the first dynamic binding of the table that matches
its hardware address) has a lease that has not lapsed, whatever options the
message carries and whatever the status of `b` is (`PENDING` and `ASSOCIATED`
included): whenever `serve_dhcp_discover` returns, the cursor of the pool and
the number of bindings are unchanged, `b` is unchanged at its position, the
reply carries `yiaddr = htonl (b.address)` and the value returned is
`DHCP_OFFER` or `NOP`; and when the message carries no Parameter Request List
and the reply buffer has room for the magic cookie and the End marker,
`serve_dhcp_discover` does return and the value is `DHCP_OFFER`. -/
theorem discover_dynamic_live (so : option_search) (le : Bool)
    (reply_ptr rsize now : Nat) (msg : dhcp_message) (len : Nat) (reply : dhcp_message)
    (pool : address_pool) (pre post : List address_binding) (b : address_binding)
    (htable : pool.bindings = pre ++ b :: post)
    (hstatic : ∀ x ∈ pool.bindings, static_match msg x = false)
    (hpre : ∀ x ∈ pre, dynamic_match msg x = false)
    (hb : dynamic_match msg b = true)
    (hfresh : now ≤ b.assoc_time + b.lease_time) :
    (∀ r, serve_dhcp_discover so le reply_ptr rsize now msg len reply pool = some r →
        r.1.current = pool.current
          ∧ r.1.bindings.length = pool.bindings.length
          ∧ r.1.bindings[pre.length]? = some b
          ∧ r.2.1.yiaddr = htonl le b.address
          ∧ (r.2.2 = dhcp_msg_type.DHCP_OFFER ∨ r.2.2 = dhcp_msg_type.NOP))
      ∧ (so msg.options (options_len len) PARAMETER_REQUEST_LIST = none → 241 ≤ rsize →
          ∃ r, serve_dhcp_discover so le reply_ptr rsize now msg len reply pool = some r
            ∧ r.2.2 = dhcp_msg_type.DHCP_OFFER) := by
  have heq := serve_dhcp_discover_dynamic so le reply_ptr rsize now msg len reply pool
    pre post b htable hstatic hpre hb
  rw [expire_entry_fresh now b hfresh, renew_pending_fresh now pool b hfresh] at heq
  constructor
  · intro r hr
    rw [heq] at hr
    simp only [Option.map_eq_some'] at hr
    obtain ⟨q, hq, hres⟩ := hr
    subst hres
    have hp := prepare_dhcp_offer_result so le reply_ptr rsize _ msg len reply _ q hq
    refine ⟨rfl, ?_, ?_, hp.1, hp.2⟩
    · simp [htable]
    · have hlen : pre.length = (pre.map (expire_entry now)).length := by simp
      simp only []
      rw [hlen]
      exact getElem?_append_length_cons _ _ _
  · intro hno hsize
    obtain ⟨q, hq⟩ := prepare_dhcp_offer_plain so le reply_ptr rsize
      { pool with bindings := (pre.map (expire_entry now)
          ++ b :: post.map (expire_entry now)) }
      msg len reply b hno hsize
    rw [heq, hq]
    exact ⟨_, rfl, rfl⟩

/-- An instance of `discover_dynamic_live`: at time `200`, a DISCOVER without
Parameter Request List from `mac_a`, whose dynamic binding `pending_a` is
`PENDING` until `220`, is answered with `DHCP_OFFER`. -/
theorem discover_dynamic_live_witness :
    ∃ r, serve_dhcp_discover search_option false 65536 548 200
        (discover_msg mac_a plain_options) 300
        (fresh_reply (discover_msg mac_a plain_options))
        (pool_be (ip4 10 0 0 11) [pending_a]) = some r
      ∧ r.2.2 = dhcp_msg_type.DHCP_OFFER :=
  (discover_dynamic_live search_option false 65536 548 200
    (discover_msg mac_a plain_options) 300 (fresh_reply (discover_msg mac_a plain_options))
    (pool_be (ip4 10 0 0 11) [pending_a]) [] [] pending_a rfl (by decide) (by decide)
    (by decide) (by decide)).2 (by decide) (by decide)

/-! ### What `new_dynamic_assoc` does to the pool -/

theorem take_free_address_current (le : Bool) (pool : address_pool) :
    (take_free_address le pool).2.current = pool.current
      ∨ (take_free_address le pool).2.current
          = htonl le ((ntohl le pool.current + 1) % 4294967296) := by
  unfold take_free_address
  split
  · exact Or.inr rfl
  · exact Or.inl rfl

theorem take_free_address_nonzero (le : Bool) (pool : address_pool)
    (h : (take_free_address le pool).1 ≠ 0) :
    (take_free_address le pool).1 = pool.current ∧ pool.current ≤ pool.last
      ∧ (take_free_address le pool).2
          = { pool with current := htonl le ((ntohl le pool.current + 1) % 4294967296) } := by
  unfold take_free_address at h ⊢
  split
  · rename_i hle
    exact ⟨rfl, hle, rfl⟩
  · rename_i hle
    simp [hle] at h

theorem take_or_reuse_shape (le : Bool) (now : Nat) (msg : dhcp_message)
    (pool : address_pool) (fa : Option address_binding) (r : address_pool × Option Nat)
    (h : take_or_reuse le now msg pool fa = some r) :
    (r.1.bindings = pool.bindings
        ∧ (r.1.current = pool.current
          ∨ r.1.current = htonl le ((ntohl le pool.current + 1) % 4294967296)))
      ∨ (r.1.bindings = new_binding now pool pool.current msg :: pool.bindings
        ∧ r.2 = some 0 ∧ pool.current ≤ pool.last ∧ pool.current ≠ 0
        ∧ r.1.current = htonl le ((ntohl le pool.current + 1) % 4294967296)) := by
  unfold take_or_reuse at h
  split at h
  · rename_i hnz
    obtain ⟨h1, h2, h3⟩ := take_free_address_nonzero le pool hnz
    cases h
    refine Or.inr ⟨?_, rfl, h2, ?_, ?_⟩
    · simp only [add_binding, h1, h3, new_binding]
    · rw [← h1]
      exact hnz
    · simp only [add_binding, h3]
  · simp only [Option.map_eq_some'] at h
    obtain ⟨i, -, hres⟩ := h
    subst hres
    exact Or.inl ⟨take_free_address_bindings le pool, take_free_address_current le pool⟩

theorem new_dynamic_assoc_shape (so : option_search) (le : Bool) (now : Nat)
    (msg : dhcp_message) (len : Nat) (pool : address_pool) (r : address_pool × Option Nat)
    (h : new_dynamic_assoc so le now msg len pool = some r) :
    (r.1.bindings = (request_scan le now msg len
          (so msg.options (options_len len) REQUESTED_IP_ADDRESS) pool).1
        ∧ (r.1.current = pool.current
          ∨ r.1.current = htonl le ((ntohl le pool.current + 1) % 4294967296)))
      ∨ (r.1.bindings = new_binding now pool pool.current msg
            :: (request_scan le now msg len
                (so msg.options (options_len len) REQUESTED_IP_ADDRESS) pool).1
        ∧ r.2 = some 0 ∧ pool.current ≤ pool.last ∧ pool.current ≠ 0
        ∧ r.1.current = htonl le ((ntohl le pool.current + 1) % 4294967296))
      ∨ (∃ o, so msg.options (options_len len) REQUESTED_IP_ADDRESS = some o
        ∧ (request_scan le now msg len (some o) pool).2.bind
            (fun i => (request_scan le now msg len (some o) pool).1[i]?) = none
        ∧ r.1.bindings = new_binding now pool (requested_address le msg o) msg
            :: (request_scan le now msg len (some o) pool).1
        ∧ r.2 = some 0 ∧ r.1.current = pool.current) := by
  unfold new_dynamic_assoc at h
  simp only at h
  split at h
  · split at h
    · cases h
      exact Or.inl ⟨rfl, Or.inl rfl⟩
    · rcases take_or_reuse_shape le now msg _ _ r h with h1 | h1
      · exact Or.inl h1
      · exact Or.inr (Or.inl h1)
  · rename_i hnone
    split at h
    · rcases take_or_reuse_shape le now msg _ _ r h with h1 | h1
      · exact Or.inl h1
      · exact Or.inr (Or.inl h1)
    · rename_i o ho
      cases h
      refine Or.inr (Or.inr ⟨o, ho, ?_, ?_, rfl, rfl⟩)
      · rw [ho] at hnone
        exact hnone
      · simp only [add_binding, new_binding, ho]

theorem request_scan_length (le : Bool) (now : Nat) (msg : dhcp_message) (len : Nat)
    (ip_opt : Option Nat) (pool : address_pool) :
    (request_scan le now msg len ip_opt pool).1.length = pool.bindings.length := by
  unfold request_scan
  split
  · split
    · exact requested_loop_length now _ _
    · rfl
  · rfl

/-- Where the address of a new binding comes from (background to C8).  Every
binding that `new_dynamic_assoc` creates is put at the head of the list and is
returned; its address is either the cursor of the pool
before the call, which then satisfies `current ≤ last` (so it lies in
`[first, last]` whenever `first ≤ current`), or the address word carried by
the Requested IP Address option of the message, taken as it is, with no test
against `first` and `last`. -/
theorem created_binding_address (so : option_search) (le : Bool) (now : Nat)
    (msg : dhcp_message) (len : Nat) (pool : address_pool) (r : address_pool × Option Nat)
    (h : new_dynamic_assoc so le now msg len pool = some r)
    (hnew : r.1.bindings.length = pool.bindings.length + 1) :
    ∃ nb rest, r.1.bindings = nb :: rest ∧ r.2 = some 0
      ∧ ((nb = new_binding now pool pool.current msg ∧ pool.current ≤ pool.last)
        ∨ (∃ o, so msg.options (options_len len) REQUESTED_IP_ADDRESS = some o
            ∧ nb = new_binding now pool (requested_address le msg o) msg)) := by
  rcases new_dynamic_assoc_shape so le now msg len pool r h with h1 | h1 | h1
  · have := request_scan_length le now msg len
      (so msg.options (options_len len) REQUESTED_IP_ADDRESS) pool
    rw [h1.1, this] at hnew
    omega
  · obtain ⟨hb, h0, hle, -, -⟩ := h1
    exact ⟨_, _, hb, h0, Or.inl ⟨rfl, hle⟩⟩
  · obtain ⟨o, ho, -, hb, h0, -⟩ := h1
    exact ⟨_, _, hb, h0, Or.inr ⟨o, ho, rfl⟩⟩

/-- An instance of `created_binding_address`: at time `10` a request without Requested IP Address from
`mac_a`, on an empty table with the cursor at `10.0.0.10`, creates the binding
for `10.0.0.10`. -/
theorem created_binding_address_witness :
    ∃ nb rest,
      (add_binding 10 (pool_be (ip4 10 0 0 11) []) (ip4 10 0 0 10)
          (discover_msg mac_a plain_options).chaddr ETHERNET_LEN binding_status.PENDING
          0).bindings = nb :: rest
      ∧ some 0 = some 0
      ∧ ((nb = new_binding 10 (pool_be (ip4 10 0 0 10) []) (pool_be (ip4 10 0 0 10) []).current
              (discover_msg mac_a plain_options)
          ∧ (pool_be (ip4 10 0 0 10) []).current ≤ (pool_be (ip4 10 0 0 10) []).last)
        ∨ (∃ o, search_option (discover_msg mac_a plain_options).options (options_len 300)
              REQUESTED_IP_ADDRESS = some o
            ∧ nb = new_binding 10 (pool_be (ip4 10 0 0 10) [])
                (requested_address false (discover_msg mac_a plain_options) o)
                (discover_msg mac_a plain_options))) :=
  created_binding_address search_option false 10 (discover_msg mac_a plain_options) 300
    (pool_be (ip4 10 0 0 10) [])
    (add_binding 10 (pool_be (ip4 10 0 0 11) []) (ip4 10 0 0 10)
      (discover_msg mac_a plain_options).chaddr ETHERNET_LEN binding_status.PENDING 0, some 0)
    (by decide) (by decide)

/-- C8 (evaluation at the failing input).  On a big-endian host, with the
range `10.0.0.10 .. 10.0.0.20` and an empty table, a request from `mac_a` whose
Requested IP Address option carries `192.168.1.77` creates a `PENDING` binding
of `mac_a` for `192.168.1.77`, an address outside `[first, last]` that no
binding held. -/
theorem requested_address_bound_out_of_range :
    new_dynamic_assoc search_option false 10 (discover_msg mac_a foreign_request_options) 300
        (pool_be (ip4 10 0 0 10) [])
      = some (pool_be (ip4 10 0 0 10)
          [binding_of mac_a (ip4 192 168 1 77) binding_status.PENDING false 10 3600], some 0)
      ∧ ¬ ((pool_be (ip4 10 0 0 10) []).first ≤ ip4 192 168 1 77
          ∧ ip4 192 168 1 77 ≤ (pool_be (ip4 10 0 0 10) []).last) := by
  decide

/-! ### Exhausted pool -/

/-- C9 (evaluation at the failing inputs).  At time `200`, on a big-endian
host, with the range `10.0.0.10 .. 10.0.0.11` used up (cursor at `10.0.0.12`,
so `take_free_address` returns `0`) and the dynamic `EXPIRED` binding
`expired_b` in the table:
* a request of `mac_a` without Requested IP Address dereferences the null
  `found_assoc` in the reuse loop (no result);
* a request of `mac_a` for `10.0.0.11`, held by the `PENDING` binding
  `pending_c`, returns `NOP` and leaves `expired_b` unused;
* a request of `mac_a` for `10.0.0.5`, held by a static `EXPIRED` binding,
  returns the first dynamic binding of the list: `assoc_c`, `ASSOCIATED` by
  `mac_c`, when it stands before `expired_b`; and `expired_b` itself, still
  `EXPIRED` and still of `mac_b`, when it is the first. -/
theorem reuse_on_exhaustion_fails :
    (take_free_address false (pool_be_used [pending_c, expired_b])).1 = 0
      ∧ new_dynamic_assoc search_option false 200 (discover_msg mac_a plain_options) 300
          (pool_be_used [pending_c, expired_b]) = none
      ∧ new_dynamic_assoc search_option false 200 (discover_msg mac_a (request_options 11)) 300
          (pool_be_used [pending_c, expired_b])
        = some (pool_be_used [pending_c, expired_b], none)
      ∧ new_dynamic_assoc search_option false 200 (discover_msg mac_a (request_options 5)) 300
          (pool_be_used [assoc_c, expired_b, static_expired_b])
        = some (pool_be_used [assoc_c, expired_b, static_expired_b], some 0)
      ∧ new_dynamic_assoc search_option false 200 (discover_msg mac_a (request_options 5)) 300
          (pool_be_used [expired_b, static_expired_b])
        = some (pool_be_used [expired_b, static_expired_b], some 0) := by
  decide

theorem reuse_loop_live (f : address_binding)
    (hlive : f.status = binding_status.PENDING ∨ f.status = binding_status.ASSOCIATED)
    (l : List address_binding) : reuse_loop (some f) l = some none := by
  induction l with
  | nil => rfl
  | cons a rest ih =>
    unfold reuse_loop
    rcases hlive with h | h <;> simp [h, ih]

theorem reuse_loop_all_static (fa : Option address_binding) (l : List address_binding)
    (h : ∀ x ∈ l, x.is_static = true) : reuse_loop fa l = some none := by
  induction l with
  | nil => rfl
  | cons a rest ih =>
    have ha : a.is_static = true := h a (by simp)
    have hr := ih (fun x hx => h x (by simp [hx]))
    unfold reuse_loop
    simp [ha, hr]

theorem take_or_reuse_exhausted (le : Bool) (now : Nat) (msg : dhcp_message)
    (pool : address_pool) (fa : Option address_binding) (hpast : pool.last < pool.current) :
    take_or_reuse le now msg pool fa
      = (reuse_loop fa pool.bindings).map (fun i => (pool, i)) := by
  have h : take_free_address le pool = (0, pool) := by
    unfold take_free_address
    rw [if_neg (by omega)]
  unfold take_or_reuse
  simp [h]

theorem requested_loop_map (now req : Nat) (l : List address_binding) :
    (requested_loop now req l).1 = l.map (expire_entry now) := by
  induction l with
  | nil => rfl
  | cons a rest ih => simp [requested_loop, ih]

theorem expire_entry_address (now : Nat) (a : address_binding) :
    (expire_entry now a).address = a.address := by
  unfold expire_entry
  split <;> rfl

theorem expire_entry_is_static (now : Nat) (a : address_binding) :
    (expire_entry now a).is_static = a.is_static := by
  unfold expire_entry
  split <;> rfl

theorem requested_loop_none (now req : Nat) (l : List address_binding)
    (h : ∀ x ∈ l, x.address ≠ req) : (requested_loop now req l).2 = none := by
  induction l with
  | nil => rfl
  | cons a rest ih =>
    have ha : a.address ≠ req := h a (by simp)
    have hr := ih (fun x hx => h x (by simp [hx]))
    simp [requested_loop, hr, expire_entry_address, ha]

theorem requested_loop_last (now req : Nat) (pre : List address_binding)
    (b : address_binding) (post : List address_binding) (hb : b.address = req)
    (hpost : ∀ x ∈ post, x.address ≠ req) :
    (requested_loop now req (pre ++ b :: post)).2 = some pre.length := by
  induction pre with
  | nil =>
    simp [requested_loop, requested_loop_none now req post hpost, expire_entry_address, hb]
  | cons a rest ih =>
    simp [requested_loop, ih]

theorem map_expire_expire (now : Nat) (l : List address_binding) :
    (l.map (expire_entry now)).map (expire_entry now) = l.map (expire_entry now) := by
  rw [List.map_map]
  congr 1
  funext a
  exact expire_entry_expire now a

theorem new_dynamic_assoc_exhausted_static (so : option_search) (le : Bool) (now : Nat)
    (msg : dhcp_message) (len : Nat) (pool : address_pool)
    (hno : so msg.options (options_len len) REQUESTED_IP_ADDRESS = none)
    (hpast : pool.last < pool.current)
    (hall : ∀ x ∈ pool.bindings, x.is_static = true) :
    new_dynamic_assoc so le now msg len pool = some (pool, none) := by
  unfold new_dynamic_assoc
  simp only [hno, request_scan, Option.bind]
  rw [take_or_reuse_exhausted le now msg _ _ hpast, reuse_loop_all_static _ _ hall]
  rfl

theorem new_dynamic_assoc_exhausted_held (so : option_search) (le : Bool) (now : Nat)
    (msg : dhcp_message) (len : Nat) (pool : address_pool) (o : Nat)
    (pre post : List address_binding) (b : address_binding)
    (ho : so msg.options (options_len len) REQUESTED_IP_ADDRESS = some o)
    (husable : ip_opt_usable msg len (some o) = true)
    (hpast : pool.last < pool.current)
    (htable : pool.bindings = pre ++ b :: post)
    (hb : b.address = requested_address le msg o)
    (hpost : ∀ x ∈ post, x.address ≠ requested_address le msg o)
    (hlive : b.status = binding_status.PENDING ∨ b.status = binding_status.ASSOCIATED)
    (hfresh : now ≤ b.assoc_time + b.lease_time) :
    new_dynamic_assoc so le now msg len pool
      = some ({ pool with bindings := pool.bindings.map (expire_entry now) }, none) := by
  have hscan : request_scan le now msg len (some o) pool
      = (pool.bindings.map (expire_entry now), some pre.length) := by
    unfold request_scan
    simp only [husable, if_true]
    apply Prod.ext
    · exact requested_loop_map now _ _
    · simp only [htable]
      exact requested_loop_last now _ pre b post hb hpost
  have hget : (pool.bindings.map (expire_entry now))[pre.length]? = some b := by
    have hlen : pre.length = (pre.map (expire_entry now)).length := by simp
    rw [htable, List.map_append, List.map_cons, expire_entry_fresh now b hfresh, hlen]
    exact getElem?_append_length_cons _ _ _
  unfold new_dynamic_assoc
  simp only [ho, hscan, Option.bind, hget]
  have hcond : ¬ ((!b.is_static) = true ∧ b.status ≠ binding_status.PENDING
      ∧ b.status ≠ binding_status.ASSOCIATED) := by
    rcases hlive with h | h <;> simp [h]
  rw [if_neg hcond, take_or_reuse_exhausted le now msg
    { pool with bindings := pool.bindings.map (expire_entry now) } (some b) hpast,
    reuse_loop_live b hlive]
  rfl

theorem serve_dhcp_discover_unknown (so : option_search) (le : Bool)
    (reply_ptr rsize now : Nat) (msg : dhcp_message) (len : Nat) (reply : dhcp_message)
    (pool : address_pool) (res : address_pool × Option Nat)
    (hstatic : ∀ x ∈ pool.bindings, static_match msg x = false)
    (hdynamic : ∀ x ∈ pool.bindings, dynamic_match msg x = false)
    (hres : new_dynamic_assoc so le now msg len
        { pool with bindings := pool.bindings.map (expire_entry now) } = some res) :
    serve_dhcp_discover so le reply_ptr rsize now msg len reply pool
      = match res with
        | (pool1, none) => some (pool1, reply, dhcp_msg_type.NOP)
        | (pool1, some i) =>
          match pool1.bindings[i]? with
          | none => none
          | some a =>
            (prepare_dhcp_offer so le reply_ptr rsize pool1 msg len reply a).map
              (fun r => (pool1, r.1, r.2)) := by
  have hs : search_static_assoc now msg pool
      = ({ pool with bindings := pool.bindings.map (expire_entry now) }, none) := by
    simp only [search_static_assoc, search_static_loop_eq]
    rw [sweep_find_miss now _ (static_match_expire now msg) _ hstatic]
  have hd : search_dynamic_assoc now msg
        { pool with bindings := pool.bindings.map (expire_entry now) }
      = ({ pool with bindings := pool.bindings.map (expire_entry now) }, none) := by
    simp only [search_dynamic_assoc, search_dynamic_loop_eq]
    rw [sweep_find_miss now _ (dynamic_match_expire now msg) _
      (by
        intro x hx
        simp only [List.mem_map] at hx
        obtain ⟨y, hy, rfl⟩ := hx
        rw [dynamic_match_expire]
        exact hdynamic y hy)]
    simp only [map_expire_expire]
  unfold serve_dhcp_discover
  simp only [hs, hd, hres]
  obtain ⟨pool1, i⟩ := res
  cases i <;> rfl

/-- The cases in which an exhausted pool does give `NOP` (background to C10).
For a DISCOVER from a client with no static and no dynamic binding, when the
stored cursor is past `last` (`last < current`), `serve_dhcp_discover` returns
`NOP`, leaves the reply buffer alone and creates no binding (the table is only
swept for expiry)
* if the message carries no Requested IP Address option and the table holds
  static bindings only, and
* if the message carries a Requested IP Address option that passes the guard
  and whose address is held, last in the list, by a binding that is `PENDING`
  or `ASSOCIATED` and whose lease has not lapsed. -/
theorem discover_exhausted_no_reply (so : option_search) (le : Bool)
    (reply_ptr rsize now : Nat) (msg : dhcp_message) (len : Nat) (reply : dhcp_message)
    (pool : address_pool)
    (hstatic : ∀ x ∈ pool.bindings, static_match msg x = false)
    (hdynamic : ∀ x ∈ pool.bindings, dynamic_match msg x = false)
    (hpast : pool.last < pool.current) :
    (so msg.options (options_len len) REQUESTED_IP_ADDRESS = none →
        (∀ x ∈ pool.bindings, x.is_static = true) →
        serve_dhcp_discover so le reply_ptr rsize now msg len reply pool
          = some ({ pool with bindings := pool.bindings.map (expire_entry now) }, reply,
              dhcp_msg_type.NOP))
      ∧ (∀ (o : Nat) (pre post : List address_binding) (b : address_binding),
          so msg.options (options_len len) REQUESTED_IP_ADDRESS = some o →
          ip_opt_usable msg len (some o) = true →
          pool.bindings = pre ++ b :: post →
          b.address = requested_address le msg o →
          (∀ x ∈ post, x.address ≠ requested_address le msg o) →
          (b.status = binding_status.PENDING ∨ b.status = binding_status.ASSOCIATED) →
          now ≤ b.assoc_time + b.lease_time →
          serve_dhcp_discover so le reply_ptr rsize now msg len reply pool
            = some ({ pool with bindings := pool.bindings.map (expire_entry now) }, reply,
                dhcp_msg_type.NOP)) := by
  constructor
  · intro hno hall
    have hres := new_dynamic_assoc_exhausted_static so le now msg len
      { pool with bindings := pool.bindings.map (expire_entry now) } hno hpast
      (by
        intro x hx
        simp only [List.mem_map] at hx
        obtain ⟨y, hy, rfl⟩ := hx
        rw [expire_entry_is_static]
        exact hall y hy)
    rw [serve_dhcp_discover_unknown so le reply_ptr rsize now msg len reply pool _
      hstatic hdynamic hres]
  · intro o pre post b ho husable htable hb hpost hlive hfresh
    have hres := new_dynamic_assoc_exhausted_held so le now msg len
      { pool with bindings := pool.bindings.map (expire_entry now) } o
      (pre.map (expire_entry now)) (post.map (expire_entry now)) b ho husable hpast
      (by
        simp only [htable, List.map_append, List.map_cons]
        rw [expire_entry_fresh now b hfresh])
      hb
      (by
        intro x hx
        simp only [List.mem_map] at hx
        obtain ⟨y, hy, rfl⟩ := hx
        rw [expire_entry_address]
        exact hpost y hy)
      hlive hfresh
    simp only [map_expire_expire] at hres
    rw [serve_dhcp_discover_unknown so le reply_ptr rsize now msg len reply pool _
      hstatic hdynamic hres]

/-- An instance of `discover_exhausted_no_reply`: at time `200`, with the range `10.0.0.10 .. 10.0.0.11` used
up, a DISCOVER of `mac_a` that asks for `10.0.0.11`, held by the `ASSOCIATED`
binding of `mac_c`, gets `NOP`; so does a DISCOVER of `mac_a` without Requested
IP Address when the table holds a static binding only. -/
theorem discover_exhausted_no_reply_witness :
    serve_dhcp_discover search_option false 65536 548 200
        (discover_msg mac_a (request_options 11)) 300
        (fresh_reply (discover_msg mac_a (request_options 11)))
        (pool_be_used [assoc_c, pending_b])
      = some ({ pool_be_used [assoc_c, pending_b] with
            bindings := (pool_be_used [assoc_c, pending_b]).bindings.map (expire_entry 200) },
          fresh_reply (discover_msg mac_a (request_options 11)), dhcp_msg_type.NOP)
      ∧ serve_dhcp_discover search_option false 65536 548 200
          (discover_msg mac_a plain_options) 300
          (fresh_reply (discover_msg mac_a plain_options))
          (pool_be_used [static_expired_b])
        = some ({ pool_be_used [static_expired_b] with
              bindings := (pool_be_used [static_expired_b]).bindings.map (expire_entry 200) },
            fresh_reply (discover_msg mac_a plain_options), dhcp_msg_type.NOP) :=
  ⟨(discover_exhausted_no_reply search_option false 65536 548 200
      (discover_msg mac_a (request_options 11)) 300
      (fresh_reply (discover_msg mac_a (request_options 11)))
      (pool_be_used [assoc_c, pending_b]) (by decide) (by decide) (by decide)).2
      7 [] [pending_b] assoc_c (by decide) (by decide) rfl (by decide) (by decide)
      (by decide) (by decide),
    (discover_exhausted_no_reply search_option false 65536 548 200
      (discover_msg mac_a plain_options) 300 (fresh_reply (discover_msg mac_a plain_options))
      (pool_be_used [static_expired_b]) (by decide) (by decide) (by decide)).1
      (by decide) (by decide)⟩

/-- C10 (evaluation at the failing inputs).  At time `200`, on a big-endian
host, with the range `10.0.0.10 .. 10.0.0.11` used up by the `ASSOCIATED` binding of `mac_c` and the
`PENDING` binding `pending_b` of `mac_b` (no binding is `EXPIRED` or
`RELEASED`, `mac_a` has none): a DISCOVER of `mac_a` whose Requested IP
Address option carries `10.0.0.50` creates a `PENDING` binding for `10.0.0.50`
and is answered with `DHCP_OFFER`; and a DISCOVER of `mac_a` without Requested
IP Address has no result at all (the reuse loop dereferences the null
`found_assoc`). -/
theorem discover_exhausted_still_offers :
    (pool_be_used [assoc_c, pending_b]).last < (pool_be_used [assoc_c, pending_b]).current
      ∧ (serve_dhcp_discover search_option false 65536 548 200
          (discover_msg mac_a (request_options 50)) 300
          (fresh_reply (discover_msg mac_a (request_options 50)))
          (pool_be_used [assoc_c, pending_b])).map (fun r => (r.1.bindings, r.2.2))
        = some ([binding_of mac_a (ip4 10 0 0 50) binding_status.PENDING false 200 3600,
              assoc_c, pending_b], dhcp_msg_type.DHCP_OFFER)
      ∧ serve_dhcp_discover search_option false 65536 548 200
          (discover_msg mac_a plain_options) 300
          (fresh_reply (discover_msg mac_a plain_options))
          (pool_be_used [assoc_c, pending_b]) = none := by
  decide

/-! ### Sequences of allocations -/

theorem bswap32_bytes (a b c d : Nat) (ha : a < 256) (hb : b < 256) (hc : c < 256)
    (hd : d < 256) :
    bswap32 (a * 16777216 + b * 65536 + c * 256 + d)
      = d * 16777216 + c * 65536 + b * 256 + a := by
  unfold bswap32
  have h1 : (a * 16777216 + b * 65536 + c * 256 + d) % 256 = d := by omega
  have h2 : (a * 16777216 + b * 65536 + c * 256 + d) / 256 % 256 = c := by omega
  have h3 : (a * 16777216 + b * 65536 + c * 256 + d) / 65536 % 256 = b := by omega
  have h4 : (a * 16777216 + b * 65536 + c * 256 + d) / 16777216 % 256 = a := by omega
  rw [h1, h2, h3, h4]

theorem bswap32_bswap32 (x : Nat) (h : x < 4294967296) : bswap32 (bswap32 x) = x := by
  have hx : x = (x / 16777216 % 256) * 16777216 + (x / 65536 % 256) * 65536
      + (x / 256 % 256) * 256 + x % 256 := by omega
  have e : bswap32 x = (x % 256) * 16777216 + (x / 256 % 256) * 65536
      + (x / 65536 % 256) * 256 + (x / 16777216 % 256) := rfl
  rw [e, bswap32_bytes _ _ _ _ (Nat.mod_lt _ (by norm_num)) (Nat.mod_lt _ (by norm_num))
    (Nat.mod_lt _ (by norm_num)) (Nat.mod_lt _ (by norm_num))]
  omega

theorem ntohl_htonl (le : Bool) (x : Nat) (h : x < 4294967296) :
    ntohl le (htonl le x) = x := by
  unfold ntohl htonl
  cases le
  · simp only [Bool.false_eq_true, if_false]
    omega
  · simp only [if_true]
    exact bswap32_bswap32 x h

theorem is_live_expire (now : Nat) (a : address_binding)
    (h : is_live (expire_entry now a) = true) : is_live a = true := by
  unfold expire_entry at h
  split at h
  · simp [is_live] at h
  · exact h

theorem no_shared_address_expire (now : Nat) (l : List address_binding)
    (h : no_shared_address l) : no_shared_address (l.map (expire_entry now)) := by
  unfold no_shared_address at h ⊢
  refine List.Pairwise.map _ ?_ h
  intro x y hxy hx hy
  rw [expire_entry_address, expire_entry_address]
  exact hxy (is_live_expire now x hx) (is_live_expire now y hy)

theorem request_scan_list (le : Bool) (now : Nat) (msg : dhcp_message) (len : Nat)
    (ip_opt : Option Nat) (pool : address_pool) :
    (request_scan le now msg len ip_opt pool).1 = pool.bindings
      ∨ (request_scan le now msg len ip_opt pool).1
          = pool.bindings.map (expire_entry now) := by
  unfold request_scan
  split
  · split
    · exact Or.inr (requested_loop_map now _ _)
    · exact Or.inl rfl
  · exact Or.inl rfl

theorem request_scan_facts (le : Bool) (now : Nat) (msg : dhcp_message) (len : Nat)
    (ip_opt : Option Nat) (pool : address_pool)
    (hinv : no_shared_address pool.bindings) (hbehind : behind_cursor le pool) :
    no_shared_address (request_scan le now msg len ip_opt pool).1
      ∧ (∀ b ∈ (request_scan le now msg len ip_opt pool).1, is_live b = true →
          ntohl le b.address < ntohl le pool.current)
      ∧ (∀ b ∈ pool.bindings, ∃ b1 ∈ (request_scan le now msg len ip_opt pool).1,
          b1.address = b.address) := by
  rcases request_scan_list le now msg len ip_opt pool with h | h
  · rw [h]
    exact ⟨hinv, hbehind, fun b hb => ⟨b, hb, rfl⟩⟩
  · rw [h]
    refine ⟨no_shared_address_expire now _ hinv, ?_, ?_⟩
    · intro b hb hl
      simp only [List.mem_map] at hb
      obtain ⟨y, hy, rfl⟩ := hb
      rw [expire_entry_address]
      exact hbehind y hy (is_live_expire now y hl)
    · intro b hb
      exact ⟨expire_entry now b, List.mem_map_of_mem _ hb, expire_entry_address now b⟩

theorem requested_loop_index_lt (now req : Nat) (l : List address_binding) :
    ∀ j, (requested_loop now req l).2 = some j → j < l.length := by
  induction l with
  | nil => intro j h; simp [requested_loop] at h
  | cons a rest ih =>
    intro j h
    simp only [requested_loop] at h
    cases hr : (requested_loop now req rest).2 with
    | none =>
      rw [hr] at h
      simp only at h
      split at h
      · cases h
        simp
      · cases h
    | some k =>
      rw [hr] at h
      simp only at h
      cases h
      have := ih k hr
      simp
      omega

theorem requested_loop_some (now req : Nat) (l : List address_binding)
    (h : ∃ b ∈ l, b.address = req) : ∃ j, (requested_loop now req l).2 = some j := by
  induction l with
  | nil => simp at h
  | cons a rest ih =>
    simp only [requested_loop]
    cases hr : (requested_loop now req rest).2 with
    | some k => exact ⟨k + 1, rfl⟩
    | none =>
      simp only
      by_cases ha : a.address = req
      · exact ⟨0, by simp [expire_entry_address, ha]⟩
      · exfalso
        obtain ⟨b, hb, hbr⟩ := h
        simp only [List.mem_cons] at hb
        rcases hb with rfl | hb
        · exact ha hbr
        · obtain ⟨j, hj⟩ := ih ⟨b, hb, hbr⟩
          rw [hr] at hj
          cases hj

theorem request_scan_found (so : option_search) (le : Bool) (now : Nat)
    (msg : dhcp_message) (len : Nat) (pool : address_pool) (o : Nat)
    (ho : so msg.options (options_len len) REQUESTED_IP_ADDRESS = some o)
    (hknown : request_known so le pool msg len) :
    (request_scan le now msg len (some o) pool).2.bind
      (fun i => (request_scan le now msg len (some o) pool).1[i]?) ≠ none := by
  unfold request_known at hknown
  rw [ho] at hknown
  obtain ⟨husable, hex⟩ := hknown
  unfold request_scan
  simp only [husable, if_true]
  obtain ⟨j, hj⟩ := requested_loop_some now _ _ hex
  have hlt := requested_loop_index_lt now _ _ j hj
  rw [hj]
  simp only [Option.bind]
  rw [List.getElem?_eq_getElem (by rw [requested_loop_length]; exact hlt)]
  simp

theorem request_known_mono (so : option_search) (le : Bool) (pool pool1 : address_pool)
    (msg : dhcp_message) (len : Nat)
    (hsub : ∀ b ∈ pool.bindings, ∃ b1 ∈ pool1.bindings, b1.address = b.address)
    (h : request_known so le pool msg len) : request_known so le pool1 msg len := by
  unfold request_known at h ⊢
  split
  · trivial
  · rename_i o ho
    rw [ho] at h
    obtain ⟨hu, b, hb, hbr⟩ := h
    obtain ⟨b1, hb1, hb1a⟩ := hsub b hb
    exact ⟨hu, b1, hb1, by rw [hb1a, hbr]⟩

theorem new_dynamic_assoc_step (so : option_search) (le : Bool) (now : Nat)
    (msg : dhcp_message) (len : Nat) (pool : address_pool) (r : address_pool × Option Nat)
    (hinv : no_shared_address pool.bindings) (hbehind : behind_cursor le pool)
    (hknown : request_known so le pool msg len)
    (hwrap : ntohl le pool.current + 1 < 4294967296)
    (h : new_dynamic_assoc so le now msg len pool = some r) :
    no_shared_address r.1.bindings ∧ behind_cursor le r.1
      ∧ (∀ b ∈ pool.bindings, ∃ b1 ∈ r.1.bindings, b1.address = b.address)
      ∧ ntohl le r.1.current ≤ ntohl le pool.current + 1 := by
  obtain ⟨hsinv, hsbehind, hssub⟩ := request_scan_facts le now msg len
    (so msg.options (options_len len) REQUESTED_IP_ADDRESS) pool hinv hbehind
  have hadv : ntohl le (htonl le ((ntohl le pool.current + 1) % 4294967296))
      = ntohl le pool.current + 1 := by
    rw [Nat.mod_eq_of_lt hwrap]
    exact ntohl_htonl le _ hwrap
  rcases new_dynamic_assoc_shape so le now msg len pool r h with h1 | h1 | h1
  · obtain ⟨hb, hc⟩ := h1
    refine ⟨by rw [hb]; exact hsinv, ?_, by rw [hb]; exact hssub, ?_⟩
    · intro b hbm hl
      rw [hb] at hbm
      have := hsbehind b hbm hl
      rcases hc with hc | hc
      · rw [hc]
        exact this
      · rw [hc, hadv]
        omega
    · rcases hc with hc | hc
      · rw [hc]
        omega
      · rw [hc, hadv]
  · obtain ⟨hb, -, -, -, hc⟩ := h1
    refine ⟨?_, ?_, ?_, ?_⟩
    · rw [hb]
      unfold no_shared_address
      rw [List.pairwise_cons]
      refine ⟨?_, hsinv⟩
      intro y hy _ hyl heq
      have := hsbehind y hy hyl
      rw [← heq] at this
      simp [new_binding] at this
    · intro b hbm hl
      rw [hb] at hbm
      rw [hc, hadv]
      simp only [List.mem_cons] at hbm
      rcases hbm with rfl | hbm
      · simp [new_binding]
      · have := hsbehind b hbm hl
        omega
    · intro b hbm
      obtain ⟨b1, hb1, hb1a⟩ := hssub b hbm
      exact ⟨b1, by rw [hb]; exact List.mem_cons_of_mem _ hb1, hb1a⟩
    · rw [hc, hadv]
  · obtain ⟨o, ho, hnone, -⟩ := h1
    exact absurd hnone (request_scan_found so le now msg len pool o ho hknown)

/-- The sequences of allocations that do keep addresses apart (background to
C1).  From a pool in which no two live (`PENDING`/`ASSOCIATED`)
bindings share an address and every live binding lies, in host order, below
the cursor, any sequence of `new_dynamic_assoc` calls (by any clients, at any
times) in which every message carries either no Requested IP Address option or
one that passes the guard and names an address some binding of the table
already has, and during which the cursor does not wrap around `2^32`, ends,
when every call returns, in a pool with the same two properties: in
particular no two live bindings have the same address. -/
theorem alloc_seq_no_shared_address (so : option_search) (le : Bool)
    (calls : List alloc_call) (pool pool1 : address_pool)
    (hinv : no_shared_address pool.bindings)
    (hbehind : behind_cursor le pool)
    (hknown : ∀ c ∈ calls, request_known so le pool c.msg c.len)
    (hwrap : ntohl le pool.current + calls.length < 4294967296)
    (hrun : alloc_seq so le calls pool = some pool1) :
    no_shared_address pool1.bindings ∧ behind_cursor le pool1 := by
  induction calls generalizing pool with
  | nil =>
    simp only [alloc_seq] at hrun
    cases hrun
    exact ⟨hinv, hbehind⟩
  | cons c rest ih =>
    simp only [alloc_seq] at hrun
    split at hrun
    · cases hrun
    · rename_i r hr
      simp only [List.length_cons] at hwrap
      obtain ⟨h1, h2, h3, h4⟩ := new_dynamic_assoc_step so le c.now c.msg c.len pool r
        hinv hbehind (hknown c (by simp)) (by omega) hr
      refine ih r.1 h1 h2 ?_ (by omega) hrun
      intro c1 hc1
      exact request_known_mono so le pool r.1 c1.msg c1.len h3 (hknown c1 (by simp [hc1]))

/-- An instance of `alloc_seq_no_shared_address`: from a table holding the `PENDING` binding of `mac_c` for
`10.0.0.11` with the cursor at `10.0.0.12`, a request of `mac_a` for
`10.0.0.11` followed by a request of `mac_b` without Requested IP Address
yields bindings for `10.0.0.12` and `10.0.0.13`. -/
theorem alloc_seq_no_shared_address_witness :
    no_shared_address
        [binding_of mac_b (ip4 10 0 0 13) binding_status.PENDING false 201 3600,
          binding_of mac_a (ip4 10 0 0 12) binding_status.PENDING false 200 3600, pending_c]
      ∧ behind_cursor false (pool_be (ip4 10 0 0 14)
        [binding_of mac_b (ip4 10 0 0 13) binding_status.PENDING false 201 3600,
          binding_of mac_a (ip4 10 0 0 12) binding_status.PENDING false 200 3600,
          pending_c]) :=
  alloc_seq_no_shared_address search_option false
    [{ now := 200, msg := discover_msg mac_a (request_options 11), len := 300 },
      { now := 201, msg := discover_msg mac_b plain_options, len := 300 }]
    (pool_be (ip4 10 0 0 12) [pending_c])
    (pool_be (ip4 10 0 0 14)
      [binding_of mac_b (ip4 10 0 0 13) binding_status.PENDING false 201 3600,
        binding_of mac_a (ip4 10 0 0 12) binding_status.PENDING false 200 3600, pending_c])
    (by decide) (by decide) (by decide) (by decide) (by decide)

/-- C1 (evaluation at the failing input).  On a big-endian host, from the
empty table with the range `10.0.0.10 .. 10.0.0.20` and the cursor at `10.0.0.10`, the request of
`mac_a` with the Requested IP Address `10.0.0.10` followed by the request of
`mac_b` without that option leaves two `PENDING` bindings for `10.0.0.10`,
one of each client. -/
theorem alloc_seq_shares_address :
    no_shared_address (pool_be (ip4 10 0 0 10) []).bindings
      ∧ memcmp_eq mac_a mac_b ETHERNET_LEN = false
      ∧ alloc_seq search_option false
          [{ now := 10, msg := discover_msg mac_a (request_options 10), len := 300 },
            { now := 11, msg := discover_msg mac_b plain_options, len := 300 }]
          (pool_be (ip4 10 0 0 10) [])
        = some (pool_be (ip4 10 0 0 11)
            [binding_of mac_b (ip4 10 0 0 10) binding_status.PENDING false 11 3600,
              binding_of mac_a (ip4 10 0 0 10) binding_status.PENDING false 10 3600])
      ∧ ¬ no_shared_address
          [binding_of mac_b (ip4 10 0 0 10) binding_status.PENDING false 11 3600,
            binding_of mac_a (ip4 10 0 0 10) binding_status.PENDING false 10 3600] := by
  decide

/-! ### Reply header -/

/-- C20.  For every request `msg`, length and reply buffer, `init_dhcp_reply`
returns `1` and yields a reply whose `op` is `BOOTREPLY`, whose `htype` and
`hlen` are `ETHERNET` and `ETHERNET_LEN` (that is `6`), and whose `xid`, `secs`
and `chaddr` are those of `msg`; the fields `yiaddr`, `siaddr` and the option
area of the reply buffer are left as they were.  The pool and the binding
table are not arguments of the function: it has no way to change them. -/
theorem init_dhcp_reply_header (msg : dhcp_message) (len : Nat) (reply : dhcp_message) :
    (init_dhcp_reply msg len reply).2 = 1
      ∧ (init_dhcp_reply msg len reply).1.op = BOOTREPLY
      ∧ (init_dhcp_reply msg len reply).1.htype = ETHERNET
      ∧ (init_dhcp_reply msg len reply).1.hlen = ETHERNET_LEN
      ∧ ETHERNET_LEN = 6
      ∧ (init_dhcp_reply msg len reply).1.xid = msg.xid
      ∧ (init_dhcp_reply msg len reply).1.secs = msg.secs
      ∧ (init_dhcp_reply msg len reply).1.chaddr = msg.chaddr
      ∧ (init_dhcp_reply msg len reply).1.yiaddr = reply.yiaddr
      ∧ (init_dhcp_reply msg len reply).1.siaddr = reply.siaddr
      ∧ (init_dhcp_reply msg len reply).1.options = reply.options :=
  ⟨rfl, rfl, rfl, rfl, rfl, rfl, rfl, rfl, rfl, rfl, rfl⟩

/-! ### Static bindings and `new_dynamic_assoc` -/

theorem expire_entry_cident (now : Nat) (a : address_binding) :
    (expire_entry now a).cident = a.cident := by
  unfold expire_entry
  split <;> rfl

theorem reuse_loop_index (fa : Option address_binding) (l : List address_binding) :
    ∀ j, reuse_loop fa l = some (some j) →
      ∃ b, l[j]? = some b ∧ b.is_static = false := by
  induction l with
  | nil => intro j h; simp [reuse_loop] at h
  | cons a rest ih =>
    intro j h
    unfold reuse_loop at h
    by_cases hs : a.is_static = true
    · simp only [hs, Bool.not_true, Bool.false_eq_true, if_false, Option.map_eq_some'] at h
      obtain ⟨r, hr, hrj⟩ := h
      cases r with
      | none => simp at hrj
      | some k =>
        simp at hrj
        subst hrj
        obtain ⟨b, hb, hbs⟩ := ih k hr
        exact ⟨b, by simpa using hb, hbs⟩
    · have hs' : a.is_static = false := by simpa using hs
      simp only [hs', Bool.not_false, if_true] at h
      cases fa with
      | none => simp at h
      | some f =>
        simp only at h
        split at h
        · cases h
          exact ⟨a, by simp, hs'⟩
        · simp only [Option.map_eq_some'] at h
          obtain ⟨r, hr, hrj⟩ := h
          cases r with
          | none => simp at hrj
          | some k =>
            simp at hrj
            subst hrj
            obtain ⟨b, hb, hbs⟩ := ih k hr
            exact ⟨b, by simpa using hb, hbs⟩

theorem take_or_reuse_returned (le : Bool) (now : Nat) (msg : dhcp_message)
    (pool : address_pool) (fa : Option address_binding) (r : address_pool × Option Nat)
    (h : take_or_reuse le now msg pool fa = some r) :
    ∀ i, r.2 = some i → ∃ b, r.1.bindings[i]? = some b ∧ b.is_static = false := by
  unfold take_or_reuse at h
  split at h
  · cases h
    intro i hi
    cases hi
    simp only [add_binding, List.getElem?_cons_zero]
    exact ⟨_, rfl, rfl⟩
  · simp only [Option.map_eq_some'] at h
    obtain ⟨j, hj, hres⟩ := h
    subst hres
    intro i hi
    simp only at hi
    subst hi
    exact reuse_loop_index fa _ i hj

theorem new_dynamic_assoc_returned (so : option_search) (le : Bool) (now : Nat)
    (msg : dhcp_message) (len : Nat) (pool : address_pool) (r : address_pool × Option Nat)
    (h : new_dynamic_assoc so le now msg len pool = some r) :
    ∀ i, r.2 = some i → ∃ b, r.1.bindings[i]? = some b ∧ b.is_static = false := by
  unfold new_dynamic_assoc at h
  simp only at h
  split at h
  · rename_i f hf
    split at h
    · rename_i hcond
      cases h
      intro i hi
      simp only at hi
      rw [hi] at hf
      simp only [Option.bind] at hf
      exact ⟨f, hf, by simpa using hcond.1⟩
    · exact take_or_reuse_returned le now msg _ _ r h
  · split at h
    · exact take_or_reuse_returned le now msg _ _ r h
    · cases h
      intro i hi
      cases hi
      simp only [add_binding, List.getElem?_cons_zero]
      exact ⟨_, rfl, rfl⟩

theorem request_scan_fields (le : Bool) (now : Nat) (msg : dhcp_message) (len : Nat)
    (ip_opt : Option Nat) (pool : address_pool) (i : Nat) (a : address_binding)
    (ha : pool.bindings[i]? = some a) :
    ∃ a1, (request_scan le now msg len ip_opt pool).1[i]? = some a1
      ∧ a1.is_static = a.is_static ∧ a1.address = a.address ∧ a1.cident = a.cident := by
  rcases request_scan_list le now msg len ip_opt pool with h | h
  · rw [h]
    exact ⟨a, ha, rfl, rfl, rfl⟩
  · rw [h]
    refine ⟨expire_entry now a, by simp [ha], ?_, ?_, ?_⟩
    · exact expire_entry_is_static now a
    · exact expire_entry_address now a
    · exact expire_entry_cident now a

/-- C11.  Whenever `new_dynamic_assoc` returns, the binding it returns (if any)
is in the table and does not have `is_static` set, and every static binding of
the table before the call is found again after it, at the same distance from
the end of the list, still static and with the same address and the same
client identifier. -/
theorem static_binding_never_reassigned (so : option_search) (le : Bool) (now : Nat)
    (msg : dhcp_message) (len : Nat) (pool : address_pool) (r : address_pool × Option Nat)
    (h : new_dynamic_assoc so le now msg len pool = some r) :
    (∀ i, r.2 = some i → ∃ b, r.1.bindings[i]? = some b ∧ b.is_static = false)
      ∧ (∀ (i : Nat) (a : address_binding), pool.bindings[i]? = some a → a.is_static = true →
          ∃ a1, r.1.bindings[i + (r.1.bindings.length - pool.bindings.length)]? = some a1
            ∧ a1.is_static = true ∧ a1.address = a.address ∧ a1.cident = a.cident) := by
  refine ⟨new_dynamic_assoc_returned so le now msg len pool r h, ?_⟩
  intro i a ha hs
  have hlen := request_scan_length le now msg len
    (so msg.options (options_len len) REQUESTED_IP_ADDRESS) pool
  obtain ⟨a1, h1, h2, h3, h4⟩ := request_scan_fields le now msg len
    (so msg.options (options_len len) REQUESTED_IP_ADDRESS) pool i a ha
  rcases new_dynamic_assoc_shape so le now msg len pool r h with hc | hc | hc
  · rw [hc.1, hlen]
    exact ⟨a1, by simpa using h1, by rw [h2, hs], h3, h4⟩
  · rw [hc.1]
    refine ⟨a1, ?_, by rw [h2, hs], h3, h4⟩
    simp only [List.length_cons, hlen]
    have he : i + (pool.bindings.length + 1 - pool.bindings.length) = i + 1 := by omega
    rw [he]
    simpa using h1
  · obtain ⟨o, ho, -, hb, -, -⟩ := hc
    rw [ho] at h1 hlen
    rw [hb]
    refine ⟨a1, ?_, by rw [h2, hs], h3, h4⟩
    simp only [List.length_cons, hlen]
    have he : i + (pool.bindings.length + 1 - pool.bindings.length) = i + 1 := by omega
    rw [he]
    simpa using h1

/-- C11 (witness): at time `200`, on a big-endian host, with the cursor at
`10.0.0.10` and the static binding `static_b` of `mac_b` in the table, the
request of `mac_a` without Requested IP Address option gets a new dynamic
binding for `10.0.0.10`, and `static_b` is found behind it, unchanged. -/
theorem static_binding_never_reassigned_witness :
    (∃ b, (pool_be (ip4 10 0 0 11)
          [binding_of mac_a (ip4 10 0 0 10) binding_status.PENDING false 200 3600,
            static_b]).bindings[0]? = some b
        ∧ b.is_static = false)
      ∧ ∃ a1, (pool_be (ip4 10 0 0 11)
          [binding_of mac_a (ip4 10 0 0 10) binding_status.PENDING false 200 3600,
            static_b]).bindings[1]? = some a1
        ∧ a1.is_static = true ∧ a1.address = static_b.address
        ∧ a1.cident = static_b.cident :=
  ⟨(static_binding_never_reassigned search_option false 200
      (discover_msg mac_a plain_options) 300
      (pool_be (ip4 10 0 0 10) [static_b])
      (pool_be (ip4 10 0 0 11)
        [binding_of mac_a (ip4 10 0 0 10) binding_status.PENDING false 200 3600, static_b],
        some 0) (by decide)).1 0 rfl,
    (static_binding_never_reassigned search_option false 200
      (discover_msg mac_a plain_options) 300
      (pool_be (ip4 10 0 0 10) [static_b])
      (pool_be (ip4 10 0 0 11)
        [binding_of mac_a (ip4 10 0 0 10) binding_status.PENDING false 200 3600, static_b],
        some 0) (by decide)).2 0 static_b
      (by decide) (by decide)⟩

/-! ### The Requested IP Address option and the reuse loop -/

/-- C18 (evaluation at the failing input).  On a big-endian host, with an empty
table, a 300-byte message of `mac_a` whose Requested IP Address option sits at
offset `7` of the option area and declares the length `2` does not pass the
guard of `new_dynamic_assoc`, and yet the four bytes behind the length byte
(`10, 0`, the End marker `255` and the byte after it) are read as an address:
the call creates a `PENDING` binding of `mac_a` for `10.0.255.0`. -/
theorem short_option_read_as_address :
    search_option (discover_msg mac_a short_request_options).options (options_len 300)
        REQUESTED_IP_ADDRESS = some 7
      ∧ opt_len (discover_msg mac_a short_request_options) 7 = 2
      ∧ ip_opt_usable (discover_msg mac_a short_request_options) 300 (some 7) = false
      ∧ new_dynamic_assoc search_option false 10 (discover_msg mac_a short_request_options) 300
          (pool_be (ip4 10 0 0 10) [])
        = some (pool_be (ip4 10 0 0 10)
            [binding_of mac_a (ip4 10 0 255 0) binding_status.PENDING false 10 3600], some 0) := by
  decide

theorem reuse_loop_null (l : List address_binding)
    (h : ∃ b ∈ l, b.is_static = false) : reuse_loop none l = none := by
  induction l with
  | nil => simp at h
  | cons a rest ih =>
    unfold reuse_loop
    by_cases hs : a.is_static = true
    · obtain ⟨b, hb, hbs⟩ := h
      simp only [List.mem_cons] at hb
      rcases hb with rfl | hb
      · rw [hs] at hbs
        cases hbs
      · simp [hs, ih ⟨b, hb, hbs⟩]
    · have hs' : a.is_static = false := by simpa using hs
      simp [hs']

theorem new_dynamic_assoc_null_dereference (so : option_search) (le : Bool) (now : Nat)
    (msg : dhcp_message) (len : Nat) (pool : address_pool)
    (hno : so msg.options (options_len len) REQUESTED_IP_ADDRESS = none)
    (hpast : pool.last < pool.current)
    (hdyn : ∃ b ∈ pool.bindings, b.is_static = false) :
    new_dynamic_assoc so le now msg len pool = none := by
  unfold new_dynamic_assoc
  simp only [hno, request_scan, Option.bind]
  rw [take_or_reuse_exhausted le now msg _ _ hpast, reuse_loop_null _ hdyn]
  rfl

/-- C19 (evaluation at the failing input).  At time `200`, on a big-endian
host, with the range `10.0.0.10 .. 10.0.0.11` used up by the `ASSOCIATED`
binding of `mac_c` and the `PENDING` binding of `mac_b`, the call of
`new_dynamic_assoc` for a message of `mac_a` without Requested IP Address has
no result: `found_assoc` is null, `take_free_address` returns `0`, and the
reuse loop reads `found_assoc->status` at the first binding of the list. -/
theorem new_dynamic_assoc_not_total :
    search_option (discover_msg mac_a plain_options).options (options_len 300)
        REQUESTED_IP_ADDRESS = none
      ∧ (take_free_address false (pool_be_used [assoc_c, pending_b])).1 = 0
      ∧ reuse_loop none (pool_be_used [assoc_c, pending_b]).bindings = none
      ∧ new_dynamic_assoc search_option false 200 (discover_msg mac_a plain_options) 300
          (pool_be_used [assoc_c, pending_b]) = none := by
  decide

/-! ### Requested options -/

theorem write_at_head_length (l : List Nat) (off : Nat) :
    (l.take off ++ List.replicate (off - l.length) 0).length = off := by
  simp only [List.length_append, List.length_take, List.length_replicate]
  omega

theorem write_at_nil (l : List Nat) (off : Nat) (h : off ≤ l.length) :
    write_at l off [] = l := by
  unfold write_at
  have : off - l.length = 0 := by omega
  simp [this]

theorem write_at_split (x r : List Nat) (b : List Nat) :
    write_at (x ++ r) x.length b = x ++ b ++ r.drop b.length := by
  unfold write_at
  have h0 : x.length - (x ++ r).length = 0 := by simp
  rw [h0, List.take_left, List.replicate_zero, List.append_nil]
  congr 1
  rw [List.drop_append_eq_append_drop]
  have hz : List.drop (x.length + b.length) x = [] :=
    List.drop_eq_nil_of_le (by omega)
  rw [hz, List.nil_append]
  congr 1
  omega

theorem write_at_write_at (l : List Nat) (off : Nat) (a b : List Nat) :
    write_at (write_at l off a) (off + a.length) b = write_at l off (a ++ b) := by
  have hp := write_at_head_length l off
  have hpa : ((l.take off ++ List.replicate (off - l.length) 0) ++ a).length
      = off + a.length := by
    rw [List.length_append, hp]
  have e2 := write_at_split ((l.take off ++ List.replicate (off - l.length) 0) ++ a)
    (l.drop (off + a.length)) b
  rw [hpa] at e2
  have e1 : write_at l off a
      = ((l.take off ++ List.replicate (off - l.length) 0) ++ a)
          ++ l.drop (off + a.length) := rfl
  rw [e1, e2, List.drop_drop]
  unfold write_at
  simp only [List.append_assoc, List.length_append]
  rw [Nat.add_assoc]

theorem write_at_length (l : List Nat) (off : Nat) (a : List Nat) :
    off + a.length ≤ (write_at l off a).length := by
  unfold write_at
  simp only [List.length_append, List.length_take, List.length_replicate, List.length_drop]
  omega

theorem write_at_filled (l : List Nat) (off : Nat) (a : List Nat) (h : off ≤ l.length) :
    write_at l off a = l.take off ++ a ++ l.drop (off + a.length) := by
  unfold write_at
  have : off - l.length = 0 := by omega
  simp [this]

theorem option_bytes_length (o : dhcp_option) : (option_bytes o).length = o.len + 2 := by
  unfold option_bytes
  simp only [List.length_cons, List.length_append, List.length_take, List.length_replicate]
  omega

theorem fill_loop_enough_room (pool : address_pool) (reply_ptr rsize dst_end : Nat)
    (ids : List Nat) :
    ∀ (dst : Nat) (reply : dhcp_message),
      reply_ptr + DHCP_HEADER_SIZE ≤ dst →
      dst - (reply_ptr + DHCP_HEADER_SIZE) ≤ reply.options.length →
      dst + (requested_bytes pool ids).length ≤ reply_ptr + rsize →
      dst + (requested_bytes pool ids).length * sizeof_dhcp_option ≤ dst_end →
      fill_loop pool reply_ptr rsize dst_end ids dst reply
        = some (1, { reply with
            options := write_at reply.options (dst - (reply_ptr + DHCP_HEADER_SIZE))
              (requested_bytes pool ids) }) := by
  induction ids with
  | nil =>
    intro dst reply _ hfilled _ _
    simp only [fill_loop, requested_bytes]
    rw [write_at_nil _ _ hfilled]
  | cons i ids ih =>
    intro dst reply hbase hfilled hbuf hroom
    unfold fill_loop
    by_cases hc : (catalog_entry pool i).id = 0
    · simp only [requested_bytes, hc, ne_eq, not_true_eq_false, if_false] at hbuf hroom ⊢
      exact ih dst reply hbase hfilled hbuf hroom
    · simp only [requested_bytes, hc, ne_eq, not_false_eq_true, if_true, List.length_append,
        option_bytes_length, sizeof_dhcp_option] at hbuf hroom ⊢
      rw [if_neg (by omega)]
      have hst : store_bytes reply_ptr rsize reply dst (option_bytes (catalog_entry pool i))
          = some { reply with
              options := write_at reply.options (dst - (reply_ptr + DHCP_HEADER_SIZE))
                (option_bytes (catalog_entry pool i)) } := by
        unfold store_bytes
        rw [if_pos ⟨hbase, by rw [option_bytes_length]; omega⟩]
      rw [hst]
      simp only
      have hoff : dst + (catalog_entry pool i).len + 2 - (reply_ptr + DHCP_HEADER_SIZE)
          = dst - (reply_ptr + DHCP_HEADER_SIZE)
            + (option_bytes (catalog_entry pool i)).length := by
        rw [option_bytes_length]
        omega
      have hlen := write_at_length reply.options (dst - (reply_ptr + DHCP_HEADER_SIZE))
        (option_bytes (catalog_entry pool i))
      rw [ih (dst + (catalog_entry pool i).len + 2) _ (by omega)
        (by simp only; rw [hoff]; exact hlen) (by omega)
        (by simp only [sizeof_dhcp_option]; omega)]
      simp only [hoff, write_at_write_at]

/-- What holds of C16 when the test of the code lets every entry pass.  When
the destination `dst` lies in the option area of the reply, behind the bytes
already written, the bytes to be written end inside the reply buffer, and
`dst_end` lies at least `sizeof(dhcp_option)` times that many bytes behind
`dst`, `fill_requested_dhcp_options` returns `1` and the option area of the
reply holds, from `dst` on, exactly the catalog entries (`id`, `len`, data) of
those requested ids for which the catalog has an entry, in the order in which
the Parameter Request List gives them; the bytes before `dst` and behind what
was written are unchanged.  The requested ids are all the data bytes of the
option when the option lies inside the first `len` bytes of the message. -/
theorem fill_requested_scaled_room (pool : address_pool)
    (reply_ptr rsize : Nat) (msg : dhcp_message) (len o dst dst_end : Nat)
    (reply : dhcp_message)
    (hbase : reply_ptr + DHCP_HEADER_SIZE ≤ dst)
    (hfilled : dst - (reply_ptr + DHCP_HEADER_SIZE) ≤ reply.options.length)
    (hbuf : dst + (requested_bytes pool (requested_ids msg len o)).length ≤ reply_ptr + rsize)
    (hroom : dst + (requested_bytes pool (requested_ids msg len o)).length * sizeof_dhcp_option
      ≤ dst_end) :
    fill_requested_dhcp_options pool reply_ptr rsize msg len o dst dst_end reply
        = some (1, { reply with
            options := reply.options.take (dst - (reply_ptr + DHCP_HEADER_SIZE))
              ++ requested_bytes pool (requested_ids msg len o)
              ++ reply.options.drop (dst - (reply_ptr + DHCP_HEADER_SIZE)
                  + (requested_bytes pool (requested_ids msg len o)).length) })
      ∧ (DHCP_HEADER_SIZE + o + 2 + opt_len msg o ≤ len →
          requested_ids msg len o
            = (List.range (opt_len msg o)).map (fun k => opt_data msg o k)) := by
  constructor
  · unfold fill_requested_dhcp_options
    rw [fill_loop_enough_room pool reply_ptr rsize dst_end _ dst reply hbase hfilled hbuf hroom,
      write_at_filled _ _ _ hfilled]
  · intro hin
    unfold requested_ids
    simp only
    rw [if_neg (by omega)]
    congr 2
    omega

/-- An instance of `fill_requested_scaled_room`: with the catalog
`small_catalog`, a 548-byte reply buffer at address `65536` that holds the
magic cookie, and `dst_end` as `prepare_dhcp_offer_or_ack` computes it
(`65536 + 548 * 548`), the Parameter Request List `3, 12, 1` makes
`fill_requested_dhcp_options` write the router and the subnet mask, in this
order, behind the cookie. -/
theorem fill_requested_scaled_room_witness :
    fill_requested_dhcp_options (pool_be_small (ip4 10 0 0 10) []) 65536 548
        (discover_msg mac_a list_request_options) 300 7 65776 365840
        (cookie_reply (discover_msg mac_a list_request_options))
      = some (1, { cookie_reply (discover_msg mac_a list_request_options) with
          options := option_magic ++ [3, 4, 10, 0, 0, 1, 1, 4, 255, 255, 255, 0] }) :=
  (fill_requested_scaled_room (pool_be_small (ip4 10 0 0 10) []) 65536 548
    (discover_msg mac_a list_request_options) 300 7 65776 365840
    (cookie_reply (discover_msg mac_a list_request_options))
    (by decide) (by decide) (by decide) (by decide)).1

theorem prepare_with_request_list (so : option_search) (le : Bool) (reply_ptr rsize : Nat)
    (pool : address_pool) (msg : dhcp_message) (len : Nat) (reply : dhcp_message)
    (assoc : address_binding) (type : dhcp_msg_type) (o : Nat)
    (r : dhcp_message × dhcp_msg_type)
    (ho : so msg.options (options_len len) PARAMETER_REQUEST_LIST = some o)
    (hptr : 1 < reply_ptr + DHCP_HEADER_SIZE)
    (h : prepare_dhcp_offer_or_ack so le reply_ptr rsize pool msg len reply assoc type
      = some r) :
    r.2 = dhcp_msg_type.NOP := by
  unfold prepare_dhcp_offer_or_ack at h
  simp only [ho] at h
  split at h
  · cases h
  · split at h
    · cases h
    · rename_i d reply3 hfill
      split at h
      · cases h
        rfl
      · rename_i hd
        have hd1 : d = 1 := by
          unfold fill_requested_dhcp_options at hfill
          have : ∀ (ids : List Nat) (dst : Nat) (rp : dhcp_message) (res : Nat × dhcp_message),
              fill_loop pool reply_ptr rsize (reply_ptr + rsize * rsize) ids dst rp
                = some res →
              res.1 = 0 ∨ res.1 = 1 := by
            intro ids
            induction ids with
            | nil =>
              intro dst rp res hres
              simp only [fill_loop] at hres
              cases hres
              exact Or.inr rfl
            | cons i ids ih =>
              intro dst rp res hres
              unfold fill_loop at hres
              split at hres
              · split at hres
                · cases hres
                  exact Or.inl rfl
                · split at hres
                  · cases hres
                  · exact ih _ _ _ hres
              · exact ih _ _ _ hres
          rcases this _ _ _ _ hfill with h0 | h1
          · exact absurd h0 hd
          · exact h1
        subst hd1
        split at h
        · cases h
          rfl
        · simp only [Option.map_eq_some'] at h
          obtain ⟨r1, hr1, -⟩ := h
          unfold store_bytes at hr1
          rw [if_neg (by omega)] at hr1
          cases hr1

/-- C17 (evaluation at the failing input).  On a big-endian host, with the
catalog `small_catalog` and a 548-byte reply buffer at address `65536`, for a
message whose Parameter Request List asks for the options `3`, `12` and `1`:
`fill_requested_dhcp_options`, started behind the magic cookie with the
`dst_end` that `prepare_dhcp_offer_or_ack` computes (`65536 + 548 * 548`),
returns `1` (the twelve bytes of the two options fit), and
`prepare_dhcp_offer_or_ack` has no result: the integer `1` has become the
pointer `dst`, and the End marker is written through it, outside the reply.  For the same message without the
Parameter Request List the function returns `DHCP_OFFER` with the option area
magic cookie, End. -/
theorem prepare_reply_without_end :
    (fill_requested_dhcp_options (pool_be_small (ip4 10 0 0 11) [pending_a]) 65536 548
        (discover_msg mac_a list_request_options) 300 7 65776 365840
        (cookie_reply (discover_msg mac_a list_request_options))).map
          (fun r => (r.1, r.2.options))
      = some (1, option_magic ++ [3, 4, 10, 0, 0, 1, 1, 4, 255, 255, 255, 0])
      ∧ prepare_dhcp_offer_or_ack search_option false 65536 548
          (pool_be_small (ip4 10 0 0 11) [pending_a])
          (discover_msg mac_a list_request_options) 300
          (fresh_reply (discover_msg mac_a list_request_options)) pending_a
          dhcp_msg_type.DHCP_OFFER = none
      ∧ (prepare_dhcp_offer_or_ack search_option false 65536 548
          (pool_be_small (ip4 10 0 0 11) [pending_a])
          (discover_msg mac_a plain_options) 300
          (fresh_reply (discover_msg mac_a plain_options)) pending_a
          dhcp_msg_type.DHCP_OFFER).map (fun r => (r.1.options, r.2))
        = some (option_magic ++ [255], dhcp_msg_type.DHCP_OFFER) := by
  decide

/-! ### DISCOVER with a Parameter Request List -/

theorem offer_found_request_list (so : option_search) (le : Bool) (reply_ptr rsize now : Nat)
    (msg : dhcp_message) (len : Nat) (reply : dhcp_message) (pool : address_pool) (i o : Nat)
    (r : address_pool × dhcp_message × dhcp_msg_type)
    (ho : so msg.options (options_len len) PARAMETER_REQUEST_LIST = some o)
    (h : offer_found so le reply_ptr rsize now msg len reply pool i = some r) :
    r.2.2 = dhcp_msg_type.NOP := by
  unfold offer_found at h
  split at h
  · cases h
  · simp only [Option.map_eq_some'] at h
    obtain ⟨q, hq, hres⟩ := h
    subst hres
    exact prepare_with_request_list so le reply_ptr rsize _ msg len reply _ _ o q ho
      (by simp only [DHCP_HEADER_SIZE]; omega) hq

/-- No DISCOVER that carries a Parameter Request List is answered with an
offer: whenever `serve_dhcp_discover` returns for such a message, the value is
`NOP`. -/
theorem serve_dhcp_discover_request_list (so : option_search) (le : Bool)
    (reply_ptr rsize now : Nat) (msg : dhcp_message) (len : Nat) (reply : dhcp_message)
    (pool : address_pool) (o : Nat) (r : address_pool × dhcp_message × dhcp_msg_type)
    (ho : so msg.options (options_len len) PARAMETER_REQUEST_LIST = some o)
    (h : serve_dhcp_discover so le reply_ptr rsize now msg len reply pool = some r) :
    r.2.2 = dhcp_msg_type.NOP := by
  unfold serve_dhcp_discover at h
  simp only at h
  split at h
  · exact offer_found_request_list so le reply_ptr rsize now msg len reply _ _ o r ho h
  · split at h
    · exact offer_found_request_list so le reply_ptr rsize now msg len reply _ _ o r ho h
    · split at h
      · cases h
      · cases h
        rfl
      · split at h
        · cases h
        · simp only [Option.map_eq_some'] at h
          obtain ⟨q, hq, hres⟩ := h
          subst hres
          exact prepare_with_request_list so le reply_ptr rsize _ msg len reply _ _ o q ho
            (by simp only [DHCP_HEADER_SIZE]; omega) hq

/-- C6 (evaluation at the failing input).  At time `200`, on a big-endian host,
with a 548-byte reply buffer at address `65536` and a catalog without entries:
`mac_a` has the static binding `static_a`, whose lease lapsed at `100`, and
sends a DISCOVER whose Parameter Request List (at offset `7` of the option
area) asks for the options `3`, `12` and `1`.  The call of
`serve_dhcp_discover` has no result, hence no offer:
`fill_requested_dhcp_options` returns `1`, which becomes the pointer `dst`, and
the End marker is written through it.  The same happens with the catalog
`small_catalog`, which has entries for `3` and `1`. -/
theorem discover_static_lapsed_not_offered :
    static_match (discover_msg mac_a list_request_options) static_a = true
      ∧ static_a.assoc_time + static_a.lease_time < 200
      ∧ search_option (discover_msg mac_a list_request_options).options (options_len 300)
          PARAMETER_REQUEST_LIST = some 7
      ∧ serve_dhcp_discover search_option false 65536 548 200
          (discover_msg mac_a list_request_options) 300
          (fresh_reply (discover_msg mac_a list_request_options))
          (pool_be (ip4 10 0 0 10) [static_a]) = none
      ∧ serve_dhcp_discover search_option false 65536 548 200
          (discover_msg mac_a list_request_options) 300
          (fresh_reply (discover_msg mac_a list_request_options))
          (pool_be_small (ip4 10 0 0 10) [static_a]) = none := by
  decide

/-- C7 (evaluation at the failing input).  At time `200`, on a big-endian host,
with a 548-byte reply buffer at address `65536` and a catalog without entries:
`mac_a` has no static binding and has the dynamic binding `pending_a`,
`PENDING` until `220`, and sends a DISCOVER whose Parameter Request List (at
offset `7` of the option area) asks for the options `3`, `12` and `1`.  The
call of `serve_dhcp_discover` has no result, hence the address of the binding
is not offered: `fill_requested_dhcp_options` returns `1`, which becomes the
pointer `dst`, and the End marker is written through it.  The same happens
with the catalog `small_catalog`, which has entries for `3` and `1`. -/
theorem discover_dynamic_live_not_offered :
    static_match (discover_msg mac_a list_request_options) pending_a = false
      ∧ dynamic_match (discover_msg mac_a list_request_options) pending_a = true
      ∧ pending_a.status = binding_status.PENDING
      ∧ 200 ≤ pending_a.assoc_time + pending_a.lease_time
      ∧ search_option (discover_msg mac_a list_request_options).options (options_len 300)
          PARAMETER_REQUEST_LIST = some 7
      ∧ serve_dhcp_discover search_option false 65536 548 200
          (discover_msg mac_a list_request_options) 300
          (fresh_reply (discover_msg mac_a list_request_options))
          (pool_be (ip4 10 0 0 11) [pending_a]) = none
      ∧ serve_dhcp_discover search_option false 65536 548 200
          (discover_msg mac_a list_request_options) 300
          (fresh_reply (discover_msg mac_a list_request_options))
          (pool_be_small (ip4 10 0 0 11) [pending_a]) = none := by
  decide

/-! ### REQUEST -/

/-- The REQUEST of the witness of C12, evaluated: the table afterwards, `yiaddr`
and the value returned. -/
theorem request_own_offer_evaluated :
    (serve_dhcp_request (spec_helpers search_option false) 200
        (discover_msg mac_a select_options) (discover_msg mac_a select_options)
        (pool_be (ip4 10 0 0 11) [pending_a])).map
          (fun r => (r.1.bindings, r.2.1.yiaddr, r.2.2))
      = some ([{ pending_a with status := binding_status.ASSOCIATED, assoc_time := 200,
                                lease_time := 3600 }],
          ip4 10 0 0 10, dhcp_msg_type.DHCP_ACK) := by
  decide

theorem serve_dhcp_request_no_server_id (H : request_helpers) (now : Nat)
    (msg : dhcp_message) (opts : dhcp_message) (pool : address_pool)
    (hid : H.get_server_id opts = 0) (hown : pool.server_id ≠ 0) :
    serve_dhcp_request H now msg opts pool = some (pool, opts, dhcp_msg_type.NOP) := by
  unfold serve_dhcp_request
  rw [hid, if_neg (fun h => hown h.symm), if_neg (by simp)]

/-- C13 (evaluation at the failing input).  At time `200`, on a big-endian
host, with the helpers modelled from the spec: the REQUEST of `mac_a` that
carries no Server Identifier option, while `mac_a` has the `ASSOCIATED`
binding `assoc_a` for `10.0.0.10`, is answered with `NOP`; the pool is
unchanged (`assoc_time` is not refreshed) and so is the buffer. -/
theorem renewal_not_answered :
    spec_get_server_id search_option false (discover_msg mac_a renew_options) = 0
      ∧ serve_dhcp_request (spec_helpers search_option false) 200
          (discover_msg mac_a renew_options) (discover_msg mac_a renew_options)
          (pool_be (ip4 10 0 0 11) [assoc_a])
        = some (pool_be (ip4 10 0 0 11) [assoc_a], discover_msg mac_a renew_options,
            dhcp_msg_type.NOP) := by
  decide

/-! ### The dispatcher -/

theorem fall_through_ends_with_inform (H : request_helpers) (so : option_search)
    (le : Bool) (reply_ptr rsize now : Nat) (msg : dhcp_message) (len : Nat)
    (hs : List handler) :
    ∀ (st st1 : address_pool × dhcp_message × dhcp_msg_type),
      (fall_through H so le reply_ptr rsize now msg len (hs ++ [handler.inform]) st).2
        = some st1 →
      st1.2.2 = dhcp_msg_type.NOP := by
  induction hs with
  | nil =>
    intro st st1 h
    simp only [List.nil_append, fall_through, run_handler, serve_dhcp_inform] at h
    cases h
    rfl
  | cons a rest ih =>
    intro st st1 h
    simp only [List.cons_append, fall_through] at h
    split at h
    · cases h
    · exact ih _ _ h

theorem fall_through_second (H : request_helpers) (so : option_search) (le : Bool)
    (reply_ptr rsize now : Nat) (msg : dhcp_message) (len : Nat) (h1 h2 : handler)
    (hs : List handler) (st st1 : address_pool × dhcp_message × dhcp_msg_type)
    (hrun : run_handler H so le reply_ptr rsize now msg len h1 st.2.1 st.1 = some st1) :
    (fall_through H so le reply_ptr rsize now msg len (h1 :: h2 :: hs) st).1.take 2
      = [h1, h2] := by
  simp only [fall_through, hrun]
  split <;> rfl

theorem switch_entry_ends_with_inform (t : Nat)
    (ht : t = DHCPDISCOVER ∨ t = DHCPREQUEST ∨ t = DHCPDECLINE ∨ t = DHCPRELEASE
      ∨ t = DHCPINFORM) :
    ∃ hs, switch_entry t = hs ++ [handler.inform] := by
  rcases ht with rfl | rfl | rfl | rfl | rfl
  · exact ⟨[handler.discover, handler.request, handler.decline, handler.release], rfl⟩
  · exact ⟨[handler.request, handler.decline, handler.release], rfl⟩
  · exact ⟨[handler.decline, handler.release], rfl⟩
  · exact ⟨[handler.release], rfl⟩
  · exact ⟨[], rfl⟩

/-- First component of a value known to be a pair. -/
theorem fst_of_eq_pair {α β : Type} (x : α × β) (a : α) (b : β) (h : x = (a, b)) :
    x.1 = a := by
  rw [h]

/-- Second component of a value known to be a pair. -/
theorem snd_of_eq_pair {α β : Type} (x : α × β) (a : α) (b : β) (h : x = (a, b)) :
    x.2 = b := by
  rw [h]

/-- The test `if(ret != NOP)` after the switch: when the handlers leave `NOP`
in `ret`, `send_dhcp_reply` is not called. -/
theorem no_reply_of_nop (x : Option (address_pool × dhcp_message × dhcp_msg_type))
    (h : ∀ st, x = some st → st.2.2 = dhcp_msg_type.NOP) :
    (x.map (fun st => (st.1, if st.2.2 ≠ dhcp_msg_type.NOP then some st.2.1 else none))).bind
      (fun st => st.2) = none := by
  cases x with
  | none => rfl
  | some st =>
    have := h st rfl
    simp [this]

/-- C14 (evaluation at the failing input).  At time `200`, on a big-endian
host, for the 300-byte DISCOVER of `mac_a` (magic cookie, DHCP Message Type 1,
End) received on an empty table, whatever the missing helpers of the REQUEST,
DECLINE and RELEASE handlers do and whatever `ret` held before:
`serve_dhcp_discover` returns `DHCP_OFFER`, then `serve_dhcp_request` is called
as well, and no reply is sent. -/
theorem dispatcher_falls_through (H : request_helpers) (ret0 : dhcp_msg_type) :
    (serve_dhcp_discover search_option_any false 65536 548 200
        (discover_msg mac_a plain_options) 300
        (init_dhcp_reply (discover_msg mac_a plain_options) 300
          (fresh_reply (discover_msg mac_a plain_options))).1
        (pool_be (ip4 10 0 0 10) [])).map (fun r => r.2.2)
      = some dhcp_msg_type.DHCP_OFFER
      ∧ (message_dispatcher_step H search_option_any false 65536 548 200 true ret0 300
          (discover_msg mac_a plain_options) (fresh_reply (discover_msg mac_a plain_options))
          (pool_be (ip4 10 0 0 10) [])).1.take 2 = [handler.discover, handler.request]
      ∧ (message_dispatcher_step H search_option_any false 65536 548 200 true ret0 300
          (discover_msg mac_a plain_options) (fresh_reply (discover_msg mac_a plain_options))
          (pool_be (ip4 10 0 0 10) [])).2.bind (fun st => st.2) = none := by
  have hstep : message_dispatcher_step H search_option_any false 65536 548 200 true ret0 300
        (discover_msg mac_a plain_options) (fresh_reply (discover_msg mac_a plain_options))
        (pool_be (ip4 10 0 0 10) [])
      = ((fall_through H search_option_any false 65536 548 200
            (discover_msg mac_a plain_options) 300
            ([handler.discover, handler.request, handler.decline, handler.release]
              ++ [handler.inform])
            (pool_be (ip4 10 0 0 10) [],
              (init_dhcp_reply (discover_msg mac_a plain_options) 300
                (fresh_reply (discover_msg mac_a plain_options))).1, ret0)).1,
          (fall_through H search_option_any false 65536 548 200
            (discover_msg mac_a plain_options) 300
            ([handler.discover, handler.request, handler.decline, handler.release]
              ++ [handler.inform])
            (pool_be (ip4 10 0 0 10) [],
              (init_dhcp_reply (discover_msg mac_a plain_options) 300
                (fresh_reply (discover_msg mac_a plain_options))).1, ret0)).2.map
            (fun st => (st.1, if st.2.2 ≠ dhcp_msg_type.NOP then some st.2.1 else none))) :=
    rfl
  have hsome : (serve_dhcp_discover search_option_any false 65536 548 200
        (discover_msg mac_a plain_options) 300
        (init_dhcp_reply (discover_msg mac_a plain_options) 300
          (fresh_reply (discover_msg mac_a plain_options))).1
        (pool_be (ip4 10 0 0 10) [])).isSome = true := by decide
  obtain ⟨st1, hdisc⟩ := Option.isSome_iff_exists.mp hsome
  have hst1 : run_handler H search_option_any false 65536 548 200
        (discover_msg mac_a plain_options) 300 handler.discover
        (init_dhcp_reply (discover_msg mac_a plain_options) 300
          (fresh_reply (discover_msg mac_a plain_options))).1
        (pool_be (ip4 10 0 0 10) []) = some st1 := hdisc
  refine ⟨by decide, ?_, ?_⟩
  · rw [fst_of_eq_pair _ _ _ hstep]
    exact fall_through_second H search_option_any false 65536 548 200 _ 300 _ _ _ _ st1 hst1
  · rw [snd_of_eq_pair _ _ _ hstep]
    exact no_reply_of_nop _ (fun st hft =>
      fall_through_ends_with_inform H search_option_any false 65536 548 200 _ 300 _ _ st hft)

/-- C15.  For every received message that is shorter than 300 bytes, or whose
`op` is not `BOOTREQUEST`, or whose option area does not begin with the magic
cookie, one turn of `message_dispatcher` calls no handler, sends no reply and
leaves the pool, and with it the binding table, unchanged: whatever the
missing helpers, the result of `parse_options_to_list` and the contents of the
locals are. -/
theorem framing_error_dropped (H : request_helpers) (so : option_search) (le : Bool)
    (reply_ptr rsize now : Nat) (parsed : Bool) (ret0 : dhcp_msg_type) (len : Nat)
    (msg reply0 : dhcp_message) (pool : address_pool)
    (h : len < 300 ∨ msg.op ≠ BOOTREQUEST ∨ memcmp_eq msg.options option_magic 4 = false) :
    message_dispatcher_step H so le reply_ptr rsize now parsed ret0 len msg reply0 pool
      = ([], some (pool, none)) := by
  unfold message_dispatcher_step
  split
  · rfl
  · split
    · rfl
    · split
      · rfl
      · split
        · rfl
        · rename_i h1 h2 _ h4
          exfalso
          rcases h with h | h | h
          · exact h1 h
          · exact h2 h
          · exact h4 h

/-- C15 (witness): a 299-byte DISCOVER, a 300-byte message with `op = 2`, and a
300-byte message whose option area starts with `99, 130, 83, 0` are dropped. -/
theorem framing_error_dropped_witness :
    message_dispatcher_step (spec_helpers search_option_any false) search_option_any false
        65536 548 200 true dhcp_msg_type.DHCP_OFFER 299 (discover_msg mac_a plain_options)
        (fresh_reply (discover_msg mac_a plain_options)) (pool_be (ip4 10 0 0 10) [])
      = ([], some (pool_be (ip4 10 0 0 10) [], none))
      ∧ message_dispatcher_step (spec_helpers search_option_any false) search_option_any false
          65536 548 200 true dhcp_msg_type.DHCP_OFFER 300
          { discover_msg mac_a plain_options with op := 2 }
          (fresh_reply (discover_msg mac_a plain_options)) (pool_be (ip4 10 0 0 10) [])
        = ([], some (pool_be (ip4 10 0 0 10) [], none))
      ∧ message_dispatcher_step (spec_helpers search_option_any false) search_option_any false
          65536 548 200 true dhcp_msg_type.DHCP_OFFER 300
          (discover_msg mac_a [99, 130, 83, 0, 53, 1, 1, 255])
          (fresh_reply (discover_msg mac_a plain_options)) (pool_be (ip4 10 0 0 10) [])
        = ([], some (pool_be (ip4 10 0 0 10) [], none)) :=
  ⟨framing_error_dropped _ _ _ _ _ _ _ _ _ _ _ _ (Or.inl (by decide)),
    framing_error_dropped _ _ _ _ _ _ _ _ _ _ _ _ (Or.inr (Or.inl (by decide))),
    framing_error_dropped _ _ _ _ _ _ _ _ _ _ _ _ (Or.inr (Or.inr (by decide)))⟩

end Dhcpserver
